import Mathlib

/-!
Verification of the distributed-monolith graph generator
(`sample/distributed-monolith/generator.py`).

The script is embedded shallowly: the pseudo-random source is an explicit
stream of naturals, Python's fallible operations (`list.pop` on an empty
list, `random.sample` with an oversized request, `random.choice` on an
empty list, `random.randint` on an empty range) become `Option`/`Except`
values, and the node/edge/layer collections are lists of structures whose
fields mirror the CSV rows the script accumulates in memory.
-/

namespace Layercake

/-! ### Decimal representation: `Nat.repr` is injective

The generator builds identifiers such as `"lambda_" ++ Nat.repr (i+1)`;
distinctness of those identifiers reduces to injectivity of `Nat.repr`,
which we derive from `Nat.digits`.
-/

lemma toDigitsCore_eq_digits :
    ∀ (f n : Nat) (ds : List Char), 0 < n → n < 10 ^ f →
      Nat.toDigitsCore 10 f n ds =
        ((Nat.digits 10 n).map Nat.digitChar).reverse ++ ds := by
  intro f
  induction f with
  | zero =>
    intro n ds h1 h2
    simp only [pow_zero] at h2
    omega
  | succ f ih =>
    intro n ds h1 h2
    by_cases hdiv : n / 10 = 0
    · have hn10 : n < 10 := by omega
      have hdig : Nat.digits 10 n = [n] := Nat.digits_of_lt 10 n (by omega) hn10
      have hmod : n % 10 = n := Nat.mod_eq_of_lt hn10
      simp [Nat.toDigitsCore, hdiv, hdig, hmod]
    · have hpos : 0 < n / 10 := Nat.pos_of_ne_zero hdiv
      have hlt : n / 10 < 10 ^ f := by
        rw [Nat.div_lt_iff_lt_mul (by norm_num)]
        calc n < 10 ^ (f + 1) := h2
        _ = 10 ^ f * 10 := by ring
      have hdig : Nat.digits 10 n = n % 10 :: Nat.digits 10 (n / 10) :=
        Nat.digits_def' (by norm_num) h1
      rw [show Nat.toDigitsCore 10 (f + 1) n ds =
            Nat.toDigitsCore 10 f (n / 10) (Nat.digitChar (n % 10) :: ds) by
        simp [Nat.toDigitsCore, hdiv]]
      rw [ih (n / 10) (Nat.digitChar (n % 10) :: ds) hpos hlt, hdig]
      simp

lemma repr_eq_digits (n : Nat) (h : 0 < n) :
    Nat.repr n = (((Nat.digits 10 n).map Nat.digitChar).reverse).asString := by
  have hlt : n < 10 ^ (n + 1) :=
    lt_of_lt_of_le (Nat.lt_pow_self (by norm_num) n)
      (Nat.pow_le_pow_right (by norm_num) (Nat.le_succ n))
  rw [Nat.repr, Nat.toDigits, toDigitsCore_eq_digits (n + 1) n [] h hlt]
  simp [List.asString]

lemma digitChar_inj_fin : ∀ a b : Fin 10,
    Nat.digitChar a.val = Nat.digitChar b.val → a = b := by decide

lemma digitChar_inj {a b : Nat} (ha : a < 10) (hb : b < 10)
    (h : Nat.digitChar a = Nat.digitChar b) : a = b := by
  have := digitChar_inj_fin ⟨a, ha⟩ ⟨b, hb⟩ h
  exact congrArg Fin.val this

lemma map_digitChar_inj : ∀ (l₁ l₂ : List Nat),
    (∀ x ∈ l₁, x < 10) → (∀ x ∈ l₂, x < 10) →
    l₁.map Nat.digitChar = l₂.map Nat.digitChar → l₁ = l₂ := by
  intro l₁
  induction l₁ with
  | nil =>
    intro l₂ _ _ h
    cases l₂ with
    | nil => rfl
    | cons b t => simp at h
  | cons a t ih =>
    intro l₂ h₁ h₂ h
    cases l₂ with
    | nil => simp at h
    | cons b u =>
      simp only [List.map_cons, List.cons.injEq] at h
      have hab : a = b :=
        digitChar_inj (h₁ a (by simp)) (h₂ b (by simp)) h.1
      have := ih u (fun x hx => h₁ x (by simp [hx]))
        (fun x hx => h₂ x (by simp [hx])) h.2
      rw [hab, this]

lemma asString_inj {l₁ l₂ : List Char} (h : l₁.asString = l₂.asString) :
    l₁ = l₂ := by
  simpa [List.asString] using congrArg String.data h

lemma repr_injective : Function.Injective Nat.repr := by
  intro m n h
  rcases Nat.eq_zero_or_pos m with hm | hm
  · rcases Nat.eq_zero_or_pos n with hn | hn
    · rw [hm, hn]
    · exfalso
      rw [hm, repr_eq_digits n hn] at h
      have hd := asString_inj (show (['0'] : List Char).asString = _ from h)
      have hrev : (Nat.digits 10 n).map Nat.digitChar = ['0'] := by
        have := congrArg List.reverse hd
        simpa using this.symm
      rcases List.map_eq_cons_iff.mp hrev with ⟨d, t, hdig, hdc, ht⟩
      have htnil : t = [] := by
        cases t with
        | nil => rfl
        | cons x u => simp at ht
      have hd10 : d < 10 :=
        Nat.digits_lt_base (by norm_num) (by rw [hdig]; simp)
      have hd0 : d = 0 := digitChar_inj hd10 (by norm_num) hdc
      have hzero : n = 0 := by
        have := Nat.ofDigits_digits 10 n
        rw [hdig, htnil, hd0] at this
        simpa [Nat.ofDigits_singleton] using this.symm
      omega
  · rcases Nat.eq_zero_or_pos n with hn | hn
    · exfalso
      rw [hn, repr_eq_digits m hm] at h
      have hd := asString_inj (show _ = (['0'] : List Char).asString from h)
      have hrev : (Nat.digits 10 m).map Nat.digitChar = ['0'] := by
        have := congrArg List.reverse hd
        simpa using this
      rcases List.map_eq_cons_iff.mp hrev with ⟨d, t, hdig, hdc, ht⟩
      have htnil : t = [] := by
        cases t with
        | nil => rfl
        | cons x u => simp at ht
      have hd10 : d < 10 :=
        Nat.digits_lt_base (by norm_num) (by rw [hdig]; simp)
      have hd0 : d = 0 := digitChar_inj hd10 (by norm_num) hdc
      have hzero : m = 0 := by
        have := Nat.ofDigits_digits 10 m
        rw [hdig, htnil, hd0] at this
        simpa [Nat.ofDigits_singleton] using this.symm
      omega
    · rw [repr_eq_digits m hm, repr_eq_digits n hn] at h
      have hd := asString_inj h
      have hrev := congrArg List.reverse hd
      simp only [List.reverse_reverse] at hrev
      have := map_digitChar_inj (Nat.digits 10 m) (Nat.digits 10 n)
        (fun x hx => Nat.digits_lt_base (by norm_num) hx)
        (fun x hx => Nat.digits_lt_base (by norm_num) hx) hrev
      exact Nat.digits.injective 10 this

lemma string_data_inj {s t : String} (h : s.data = t.data) : s = t :=
  String.ext h

lemma stem_repr_inj (stem : String) {m n : Nat}
    (h : stem ++ Nat.repr m = stem ++ Nat.repr n) : m = n := by
  have hd := congrArg String.data h
  simp only [String.data_append] at hd
  exact repr_injective (string_data_inj (List.append_cancel_left hd))

lemma stem_append_ne {s t : String} {a b : Char} {s' t' : List Char}
    (hs : s.data = a :: s') (ht : t.data = b :: t') (hab : a ≠ b)
    (u v : String) : s ++ u ≠ t ++ v := by
  intro h
  have h2 := congrArg String.data h
  rw [String.data_append, String.data_append, hs, ht] at h2
  simp only [List.cons_append, List.cons.injEq] at h2
  exact hab h2.1

/-! ### Configuration and data model

`Config` mirrors the script's module-level constants (`NUM_TABLES_PER_DB`,
…, `DBS`); `Pools` mirrors the `resource_labels` dictionary after the
initial shuffle (the shuffle is modelled by letting the pool contents be
arbitrary inputs); `Node` / `Edge` mirror the rows appended by `add_node`
and `add_edge` (with `is_partition` already serialized to
`"true"`/`"false"` as `add_node` does).
-/

structure Config where
  NUM_TABLES_PER_DB : Nat
  NUM_LAMBDAS : Nat
  NUM_CONTAINERS : Nat
  NUM_STORED_PROCS : Nat
  NUM_API_GATEWAY_TARGETS : Nat
  NUM_S3_BUCKETS : Nat
  DBS : List String
deriving DecidableEq, Repr

/-- The constants at the top of `generator.py`. -/
def defaultConfig : Config :=
  ⟨40, 35, 10, 15, 12, 15, ["mysql", "postgres"]⟩

structure Pools where
  lambda_function : List String
  ecs_container : List String
  database_table : List String
  s3_object_store : List String
deriving DecidableEq, Repr

structure Node where
  id : String
  label : String
  layer : String
  is_partition : String
  belongs_to : String
  comment : String
deriving DecidableEq, Repr

structure Edge where
  id : String
  source : String
  target : String
  label : String
  layer : String
  comment : String
deriving DecidableEq, Repr

/-- Failure modes of the script: `poolExhausted` is Python's `pop()` on an
empty list, `insufficientPopulation` is `random.sample` asked for more
elements than the population has, `emptyChoice` is `random.choice([])`,
and `emptyRange` is `random.randint(a, b)` with `b < a`. -/
inductive GenError where
  | poolExhausted
  | insufficientPopulation
  | emptyChoice
  | emptyRange
deriving DecidableEq, Repr

/-- The pseudo-random source: an arbitrary stream of naturals together
with a position. Each primitive consumes one stream element. -/
structure RNG where
  stream : Nat → Nat
  idx : Nat

def RNG.next (r : RNG) : Nat × RNG :=
  (r.stream r.idx, ⟨r.stream, r.idx + 1⟩)

/-- Python's `random.randint(a, b)`: a uniform draw from the inclusive
range `[a, b]`; raises (`emptyRange`) when the range is empty. -/
def randint (a b : Nat) (r : RNG) : Except GenError (Nat × RNG) :=
  if b < a then .error .emptyRange
  else
    let (v, r') := r.next
    .ok (a + v % (b - a + 1), r')

/-- Python's `random.choice(l)`: a uniform element of `l`; raises
(`emptyChoice`) when `l` is empty. -/
def choice (l : List String) (r : RNG) : Except GenError (String × RNG) :=
  match l with
  | [] => .error .emptyChoice
  | x :: xs =>
    let (v, r') := r.next
    .ok ((x :: xs).getD (v % (x :: xs).length) x, r')

/-- Selection step of sampling without replacement: repeatedly remove a
randomly indexed element from the remaining population. -/
def sampleAux : Nat → List String → RNG → List String × RNG
  | 0, _, r => ([], r)
  | k + 1, pop, r =>
    let (v, r') := r.next
    let i := v % pop.length
    let x := pop.getD i ""
    let (rest, r'') := sampleAux k (pop.eraseIdx i) r'
    (x :: rest, r'')

/-- Python's `random.sample(pop, k)`: `k` distinct positions of `pop`,
raising (`insufficientPopulation`) when `k` exceeds the population. -/
def sample (pop : List String) (k : Nat) (r : RNG) :
    Except GenError (List String × RNG) :=
  if pop.length < k then .error .insufficientPopulation
  else .ok (sampleAux k pop r)

/-- Python's `list.pop()`: removes and returns the last element. -/
def popEnd : List String → Option (String × List String)
  | [] => none
  | [x] => some (x, [])
  | x :: y :: t => (popEnd (y :: t)).map (fun zr => (zr.1, x :: zr.2))

/-- Draw `n` labels from the end of a pool, in draw order; `none` models
the `IndexError` of popping an empty list (pool exhaustion). -/
def drawN : Nat → List String → Option (List String × List String)
  | 0, pool => some ([], pool)
  | n + 1, pool =>
    (popEnd pool).bind (fun xr =>
      (drawN n xr.2).map (fun lp => (xr.1 :: lp.1, lp.2)))

/-! ### Layer registry -/

def LAYER_COLORS : List (String × String × String × String) :=
  [("database", "ffcccc", "990000", "660000"),
   ("table", "ffebcc", "996600", "663300"),
   ("lambda", "ccffcc", "009900", "006600"),
   ("container", "ccccff", "000099", "000066"),
   ("stored_proc", "ffccff", "990099", "660066"),
   ("api_gateway", "ffff99", "999900", "666600"),
   ("s3", "ccffff", "009999", "006666"),
   ("root", "ffffff", "000000", "000000")]

def layers : List (String × String × String × String × String) :=
  LAYER_COLORS.map (fun p => (p.1, p.1.capitalize, p.2.1, p.2.2.1, p.2.2.2))

def layerIds : List String := layers.map (fun p => p.1)

/-! ### Topology builder -/

/-- The `add_node` helper: `is_partition` is serialized immediately and a
missing/falsy `belongs_to` becomes the empty string. -/
def mkNode (node_id label layer : String) (is_partition : Bool)
    (belongs_to : String) (comment : String) : Node :=
  ⟨node_id, label, layer, if is_partition then "true" else "false",
   belongs_to, comment⟩

def partitionNames : List String :=
  ["database", "lambda", "container", "stored_proc", "api_gateway", "s3"]

/-- Root and the six category-partition nodes. -/
def rootAndPartitions : List Node :=
  mkNode "project" "Project" "root" true "" "" ::
    partitionNames.map (fun part =>
      mkNode part part.capitalize part true "project" "")

/-- Identifier of the `i`-th table (1-based) of engine `db`. -/
def tableId (db : String) (k : Nat) : String :=
  db ++ "_table_" ++ Nat.repr k

/-- Per-engine block of the database stage: the engine partition node
followed by `NUM_TABLES_PER_DB` table leaves drawing labels. -/
def dbNodes (c : Config) : List String → List String →
    Option (List Node × List String)
  | [], pool => some ([], pool)
  | db :: rest, pool =>
    match drawN c.NUM_TABLES_PER_DB pool with
    | none => none
    | some (labs, pool') =>
      match dbNodes c rest pool' with
      | none => none
      | some (ns, pool'') =>
        some (mkNode db db.toUpper "database" true "database" "" ::
          (((List.range c.NUM_TABLES_PER_DB).zip labs).map (fun p =>
            mkNode (tableId db (p.1 + 1)) p.2 "table" false db "")) ++ ns,
          pool'')

/-- A stage of `n` leaf nodes with ids `stem ++ repr (i+1)`, drawing
labels from `pool`, all parented to `parent` with layer `layer`. -/
def leafNodes (n : Nat) (stem layer parent : String) (pool : List String) :
    Option (List Node × List String) :=
  match drawN n pool with
  | none => none
  | some (labs, pool') =>
    some (((List.range n).zip labs).map (fun p =>
      mkNode (stem ++ Nat.repr (p.1 + 1)) p.2 layer false parent ""), pool')

/-- Stored-procedure stage: each procedure is parented to a uniformly
chosen database engine. -/
def procNodes (c : Config) : List Nat → RNG →
    Except GenError (List Node × RNG)
  | [], r => .ok ([], r)
  | i :: rest, r => do
    let (db, r') ← choice c.DBS r
    let (ns, r'') ← procNodes c rest r'
    .ok (mkNode ("stored_proc_" ++ Nat.repr (i + 1))
      ("Stored Procedure " ++ Nat.repr (i + 1)) "stored_proc" false db "" ::
      ns, r'')

/-- The whole node-building phase of the script, in source order. -/
def buildNodes (c : Config) (p : Pools) (r : RNG) :
    Except GenError (List Node × Pools × RNG) :=
  match dbNodes c c.DBS p.database_table with
  | none => .error .poolExhausted
  | some (dbns, tpool) =>
    match leafNodes c.NUM_LAMBDAS "lambda_" "lambda" "lambda"
        p.lambda_function with
    | none => .error .poolExhausted
    | some (lns, lpool) =>
      match leafNodes c.NUM_CONTAINERS "container_" "container" "container"
          p.ecs_container with
      | none => .error .poolExhausted
      | some (cns, cpool) =>
        match procNodes c (List.range c.NUM_STORED_PROCS) r with
        | .error e => .error e
        | .ok (pns, r') =>
          match leafNodes c.NUM_S3_BUCKETS "s3_" "s3" "s3"
              p.s3_object_store with
          | none => .error .poolExhausted
          | some (sns, spool) =>
            .ok (rootAndPartitions ++ dbns ++ lns ++ cns ++ pns ++
              [mkNode "api_gateway_instance" "API Gateway" "api_gateway"
                false "api_gateway" ""] ++ sns,
              ⟨lpool, cpool, tpool, spool⟩, r')

/-! ### Relationship generator -/

def lambdaIds (c : Config) : List String :=
  (List.range c.NUM_LAMBDAS).map (fun i => "lambda_" ++ Nat.repr (i + 1))

def containerIds (c : Config) : List String :=
  (List.range c.NUM_CONTAINERS).map (fun i => "container_" ++ Nat.repr (i + 1))

def serviceIds (c : Config) : List String := lambdaIds c ++ containerIds c

def s3Ids (c : Config) : List String :=
  (List.range c.NUM_S3_BUCKETS).map (fun i => "s3_" ++ Nat.repr (i + 1))

def procIds (c : Config) : List String :=
  (List.range c.NUM_STORED_PROCS).map (fun i =>
    "stored_proc_" ++ Nat.repr (i + 1))

/-- The `add_edge` helper: the edge id comes from the shared counter. -/
def mkEdge (n : Nat) (source target label layer : String) : Edge :=
  ⟨"edge_" ++ Nat.repr n, source, target, label, layer, ""⟩

/-- Emit one edge per quadruple (source, target, label, layer), with
consecutive counter values starting at `cnt`. -/
def emitAll (cnt : Nat) :
    List (String × String × String × String) → List Edge × Nat
  | [] => ([], cnt)
  | q :: rest =>
    let (es, cnt') := emitAll (cnt + 1) rest
    (mkEdge cnt q.1 q.2.1 q.2.2.1 q.2.2.2 :: es, cnt')

/-- Gateway-routing phase: `random.sample` over all function and container
ids, one route edge per sampled target. -/
def gatewayEdges (c : Config) (cnt : Nat) (r : RNG) :
    Except GenError (List Edge × Nat × RNG) := do
  let tr ← sample (serviceIds c) c.NUM_API_GATEWAY_TARGETS r
  let ec := emitAll cnt (tr.1.map (fun t =>
    ("api_gateway_instance", t, "API Route", "api_gateway")))
  .ok (ec.1, ec.2, tr.2)

/-- Inner loop of the resource-access phase: `n` accesses of `funcId`,
each picking an engine and a table index with replacement. -/
def accessEdgesFor (c : Config) (funcId : String) :
    Nat → Nat → RNG → Except GenError (List Edge × Nat × RNG)
  | 0, cnt, r => .ok ([], cnt, r)
  | n + 1, cnt, r => do
    let (db, r₁) ← choice c.DBS r
    let (k, r₂) ← randint 1 c.NUM_TABLES_PER_DB r₁
    let (es, cnt', r₃) ← accessEdgesFor c funcId n (cnt + 1) r₂
    .ok (mkEdge cnt funcId (tableId db k) "Reads/Writes" "table" :: es,
      cnt', r₃)

/-- Resource-access phase: every function and container accesses a random
number (3–7) of random tables. -/
def accessEdges (c : Config) :
    List String → Nat → RNG → Except GenError (List Edge × Nat × RNG)
  | [], cnt, r => .ok ([], cnt, r)
  | f :: rest, cnt, r => do
    let (n, r₁) ← randint 3 7 r
    let (es, cnt₁, r₂) ← accessEdgesFor c f n cnt r₁
    let (es', cnt₂, r₃) ← accessEdges c rest cnt₁ r₂
    .ok (es ++ es', cnt₂, r₃)

/-- Inner loop of the stored-procedure phase: `n` executions against
tables of the single engine `db`, chosen with replacement. -/
def procEdgesFor (c : Config) (procId db : String) :
    Nat → Nat → RNG → Except GenError (List Edge × Nat × RNG)
  | 0, cnt, r => .ok ([], cnt, r)
  | n + 1, cnt, r => do
    let (k, r₁) ← randint 1 c.NUM_TABLES_PER_DB r
    let (es, cnt', r₂) ← procEdgesFor c procId db n (cnt + 1) r₁
    .ok (mkEdge cnt procId (tableId db k) "Executes" "stored_proc" :: es,
      cnt', r₂)

/-- Stored-procedure phase: each procedure picks one engine, then 2–5
execution edges against that engine's tables. -/
def procEdges (c : Config) :
    List String → Nat → RNG → Except GenError (List Edge × Nat × RNG)
  | [], cnt, r => .ok ([], cnt, r)
  | p :: rest, cnt, r => do
    let (db, r₁) ← choice c.DBS r
    let (n, r₂) ← randint 2 5 r₁
    let (es, cnt₁, r₃) ← procEdgesFor c p db n cnt r₂
    let (es', cnt₂, r₄) ← procEdges c rest cnt₁ r₃
    .ok (es ++ es', cnt₂, r₄)

/-- One peer-call batch: `n` edges whose endpoints are chosen uniformly
with replacement from `srcPool` and `tgtPool`. -/
def peerBatch (srcPool tgtPool : List String) (label layer : String) :
    Nat → Nat → RNG → Except GenError (List Edge × Nat × RNG)
  | 0, cnt, r => .ok ([], cnt, r)
  | n + 1, cnt, r => do
    let (s, r₁) ← choice srcPool r
    let (t, r₂) ← choice tgtPool r₁
    let (es, cnt', r₃) ← peerBatch srcPool tgtPool label layer n (cnt + 1) r₂
    .ok (mkEdge cnt s t label layer :: es, cnt', r₃)

/-- Storage-binding phase: `random.sample` over services, zipped
position-wise with the object-store ids. -/
def s3Edges (c : Config) (cnt : Nat) (r : RNG) :
    Except GenError (List Edge × Nat × RNG) := do
  let cr ← sample (serviceIds c) c.NUM_S3_BUCKETS r
  let ec := emitAll cnt (((s3Ids c).zip cr.1).map (fun p =>
    (p.2, p.1, "Stores/Reads", "s3")))
  .ok (ec.1, ec.2, cr.2)

/-- The whole edge-generation phase of the script, in source order, with
the shared counter starting at `cnt`. -/
def genEdges (c : Config) (cnt : Nat) (r : RNG) :
    Except GenError (List Edge × Nat × RNG) := do
  let (es₁, cnt₁, r₁) ← gatewayEdges c cnt r
  let (es₂, cnt₂, r₂) ← accessEdges c (serviceIds c) cnt₁ r₁
  let (es₃, cnt₃, r₃) ← procEdges c (procIds c) cnt₂ r₂
  let (n₄, r₄) ← randint 10 20 r₃
  let (es₄, cnt₄, r₅) ←
    peerBatch (containerIds c) (lambdaIds c) "API Call" "container" n₄ cnt₃ r₄
  let (n₅, r₆) ← randint 10 20 r₅
  let (es₅, cnt₅, r₇) ←
    peerBatch (lambdaIds c) (containerIds c) "API Call" "lambda" n₅ cnt₄ r₆
  let (es₆, cnt₆, r₈) ← s3Edges c cnt₅ r₇
  .ok (es₁ ++ es₂ ++ es₃ ++ es₄ ++ es₅ ++ es₆, cnt₆, r₈)

/-- A full run: build the nodes, then the edges (counter starts at 1). -/
def run (c : Config) (p : Pools) (r : RNG) :
    Except GenError (List Node × List Edge) := do
  let (ns, _, r') ← buildNodes c p r
  let (es, _, _) ← genEdges c 1 r'
  .ok (ns, es)

/-! ### Lemmas about the pool and sampling primitives -/

lemma popEnd_eq_some : ∀ {l : List String} {x rest},
    popEnd l = some (x, rest) → l = rest ++ [x] := by
  intro l
  induction l with
  | nil => intro x rest h; simp [popEnd] at h
  | cons a t ih =>
    intro x rest h
    cases t with
    | nil =>
      simp only [popEnd, Option.some.injEq, Prod.mk.injEq] at h
      rw [← h.1, ← h.2]
      rfl
    | cons b u =>
      simp only [popEnd, Option.map_eq_some'] at h
      rcases h with ⟨⟨z, rr⟩, hzr, hx⟩
      simp only [Prod.mk.injEq] at hx
      rw [← hx.2, ← hx.1, ih hzr]
      rfl

lemma popEnd_nil_iff : ∀ {l : List String}, popEnd l = none ↔ l = [] := by
  intro l
  induction l with
  | nil => simp [popEnd]
  | cons a t ih =>
    cases t with
    | nil => simp [popEnd]
    | cons b u =>
      simp only [popEnd, Option.map_eq_none']
      constructor
      · intro h
        exact absurd (ih.mp h) (by simp)
      · intro h
        simp at h

lemma popEnd_isSome {l : List String} (h : l ≠ []) : (popEnd l).isSome := by
  cases hp : popEnd l with
  | none => exact absurd (popEnd_nil_iff.mp hp) h
  | some zr => rfl

/-- A successful `n`-fold draw takes exactly the reversed suffix of the
pool: the pool splits as `rest ++ labs.reverse`. -/
lemma drawN_some : ∀ {n : Nat} {pool labs rest : List String},
    drawN n pool = some (labs, rest) →
    pool = rest ++ labs.reverse ∧ labs.length = n := by
  intro n
  induction n with
  | zero =>
    intro pool labs rest h
    simp only [drawN, Option.some.injEq, Prod.mk.injEq] at h
    rw [← h.1, ← h.2]
    simp
  | succ n ih =>
    intro pool labs rest h
    simp only [drawN, Option.bind_eq_some, Option.map_eq_some'] at h
    rcases h with ⟨⟨x, rest'⟩, hp, ⟨xs, pool'⟩, hd, hx⟩
    dsimp only at hd hx
    simp only [Prod.mk.injEq] at hx
    have h1 := popEnd_eq_some hp
    have h2 := ih hd
    constructor
    · rw [h1, h2.1, ← hx.1, ← hx.2]
      simp
    · rw [← hx.1]
      simp [h2.2]

lemma drawN_isSome : ∀ {n : Nat} {pool : List String},
    n ≤ pool.length → (drawN n pool).isSome := by
  intro n
  induction n with
  | zero => intro pool _; simp [drawN]
  | succ n ih =>
    intro pool h
    have hne : pool ≠ [] := by
      intro hnil
      rw [hnil] at h
      simp at h
    cases hp : popEnd pool with
    | none => exact absurd (popEnd_nil_iff.mp hp) hne
    | some xr =>
      cases xr with
      | mk x rest =>
        have h1 := popEnd_eq_some hp
        have hlen : n ≤ rest.length := by
          have := congrArg List.length h1
          simp at this
          omega
        have h2 := ih hlen
        cases hd : drawN n rest with
        | none => rw [hd] at h2; simp at h2
        | some lp =>
          simp [drawN, hp, hd]

lemma drawN_none {n : Nat} {pool : List String}
    (h : pool.length < n) : drawN n pool = none := by
  cases hd : drawN n pool with
  | none => rfl
  | some lp =>
    exfalso
    cases lp with
    | mk labs rest =>
      have := drawN_some hd
      have hlen := congrArg List.length this.1
      simp [this.2] at hlen
      omega

/-- The element taken by one selection step belongs to the population. -/
lemma getD_mem {l : List String} {i : Nat} {d : String} (hd : d ∈ l) :
    l.getD i d ∈ l := by
  by_cases h : i < l.length
  · rw [List.getD_eq_getElem l d h]
    exact List.getElem_mem h
  · rw [List.getD_eq_default l d (by omega)]
    exact hd

lemma cons_eraseIdx_perm {l : List String} {i : Nat} (h : i < l.length) :
    List.Perm l (l.getD i "" :: l.eraseIdx i) := by
  rw [List.getD_eq_getElem l "" h]
  exact (List.perm_cons_erase (List.getElem_mem h)).trans
    (List.Perm.cons _ (List.erase_getElem h))

lemma sampleAux_subperm : ∀ (k : Nat) (pop : List String) (r : RNG),
    k ≤ pop.length →
    List.Subperm (sampleAux k pop r).1 pop ∧ (sampleAux k pop r).1.length = k := by
  intro k
  induction k with
  | zero =>
    intro pop r _
    exact ⟨List.nil_subperm, rfl⟩
  | succ k ih =>
    intro pop r h
    have hpos : 0 < pop.length := by omega
    have hi : (r.next.1) % pop.length < pop.length := Nat.mod_lt _ hpos
    have hlen : (pop.eraseIdx (r.next.1 % pop.length)).length = pop.length - 1 := by
      have := List.length_eraseIdx_add_one hi
      omega
    have hk : k ≤ (pop.eraseIdx (r.next.1 % pop.length)).length := by omega
    have hrec := ih (pop.eraseIdx (r.next.1 % pop.length)) r.next.2 hk
    have hperm : List.Perm pop (pop.getD (r.next.1 % pop.length) "" ::
        pop.eraseIdx (r.next.1 % pop.length)) := cons_eraseIdx_perm hi
    constructor
    · show List.Subperm (pop.getD (r.next.1 % pop.length) "" ::
        (sampleAux k (pop.eraseIdx (r.next.1 % pop.length)) r.next.2).1) pop
      refine List.Subperm.trans ?_ hperm.symm.subperm
      exact (List.subperm_cons _).mpr hrec.1
    · show (pop.getD (r.next.1 % pop.length) "" ::
        (sampleAux k (pop.eraseIdx (r.next.1 % pop.length)) r.next.2).1).length = k + 1
      simp [hrec.2]

lemma sample_ok {pop : List String} {k : Nat} {r : RNG} {l : List String}
    {r' : RNG} (h : sample pop k r = .ok (l, r')) :
    List.Subperm l pop ∧ l.length = k := by
  rw [sample] at h
  by_cases hk : pop.length < k
  · rw [if_pos hk] at h
    exact absurd h (by simp)
  · rw [if_neg hk] at h
    have := sampleAux_subperm k pop r (by omega)
    simp only [Except.ok.injEq] at h
    rw [show l = (sampleAux k pop r).1 from (congrArg Prod.fst h).symm]
    exact this

lemma sample_error {pop : List String} {k : Nat} {r : RNG}
    (h : pop.length < k) :
    sample pop k r = .error .insufficientPopulation := by
  rw [sample, if_pos h]

lemma choice_ok_mem {l : List String} {r : RNG} {x : String} {r' : RNG}
    (h : choice l r = .ok (x, r')) : x ∈ l := by
  cases l with
  | nil => simp [choice] at h
  | cons a t =>
    simp only [choice, Except.ok.injEq, Prod.mk.injEq] at h
    rw [← h.1]
    exact getD_mem (by simp)

lemma choice_progress {l : List String} (h : l ≠ []) (r : RNG) :
    ∃ x r', choice l r = .ok (x, r') := by
  cases l with
  | nil => exact absurd rfl h
  | cons a t => exact ⟨_, _, rfl⟩

lemma randint_ok {a b : Nat} {r : RNG} {k : Nat} {r' : RNG}
    (h : randint a b r = .ok (k, r')) : a ≤ k ∧ k ≤ b := by
  rw [randint] at h
  by_cases hab : b < a
  · rw [if_pos hab] at h
    exact absurd h (by simp)
  · rw [if_neg hab] at h
    simp only [Except.ok.injEq, Prod.mk.injEq] at h
    have hmod : r.next.1 % (b - a + 1) < b - a + 1 := Nat.mod_lt _ (by omega)
    omega

lemma randint_progress {a b : Nat} (h : a ≤ b) (r : RNG) :
    ∃ k r', randint a b r = .ok (k, r') := by
  rw [randint, if_neg (by omega)]
  exact ⟨_, _, rfl⟩

/-! ### Edge-id bookkeeping: the shared counter -/

/-- Edges carry consecutive counter ids starting at `cnt`. -/
def SeqIds (cnt : Nat) (es : List Edge) : Prop :=
  ∀ i : Fin es.length, (es.get i).id = "edge_" ++ Nat.repr (cnt + i.val)

lemma seqIds_nil (cnt : Nat) : SeqIds cnt [] := by
  intro i
  exact absurd i.isLt (by simp)

lemma seqIds_cons {cnt : Nat} {e : Edge} {es : List Edge}
    (he : e.id = "edge_" ++ Nat.repr cnt) (h : SeqIds (cnt + 1) es) :
    SeqIds cnt (e :: es) := by
  intro i
  rcases i with ⟨iv, hiv⟩
  cases iv with
  | zero => simpa using he
  | succ j =>
    have hj : j < es.length := by simpa using hiv
    have := h ⟨j, hj⟩
    simp only [List.get_eq_getElem] at this ⊢
    simp only [List.getElem_cons_succ]
    rw [this]
    have : cnt + 1 + j = cnt + (j + 1) := by omega
    rw [this]

lemma seqIds_append {cnt : Nat} {es es' : List Edge}
    (h : SeqIds cnt es) (h' : SeqIds (cnt + es.length) es') :
    SeqIds cnt (es ++ es') := by
  intro i
  rcases i with ⟨iv, hiv⟩
  simp only [List.get_eq_getElem]
  by_cases hlt : iv < es.length
  · rw [List.getElem_append_left hlt]
    exact h ⟨iv, hlt⟩
  · have hlen : iv - es.length < es'.length := by
      simp at hiv
      omega
    rw [List.getElem_append_right (by omega)]
    have := h' ⟨iv - es.length, hlen⟩
    simp only [List.get_eq_getElem] at this
    rw [this]
    have : cnt + es.length + (iv - es.length) = cnt + iv := by omega
    rw [this]

lemma emitAll_quad : ∀ (cnt : Nat) (l : List (String × String × String × String)),
    ((emitAll cnt l).1).map (fun e => (e.source, e.target, e.label, e.layer)) = l := by
  intro cnt l
  induction l generalizing cnt with
  | nil => rfl
  | cons q rest ih => simp [emitAll, mkEdge, ih]

lemma emitAll_length : ∀ (cnt : Nat) (l : List (String × String × String × String)),
    (emitAll cnt l).1.length = l.length := by
  intro cnt l
  induction l generalizing cnt with
  | nil => rfl
  | cons q rest ih => simp [emitAll, ih]

lemma emitAll_cnt : ∀ (cnt : Nat) (l : List (String × String × String × String)),
    (emitAll cnt l).2 = cnt + l.length := by
  intro cnt l
  induction l generalizing cnt with
  | nil => simp [emitAll]
  | cons q rest ih =>
    simp [emitAll, ih]
    omega

lemma emitAll_seqIds : ∀ (cnt : Nat) (l : List (String × String × String × String)),
    SeqIds cnt (emitAll cnt l).1 := by
  intro cnt l
  induction l generalizing cnt with
  | nil => exact seqIds_nil cnt
  | cons q rest ih =>
    show SeqIds cnt (mkEdge cnt q.1 q.2.1 q.2.2.1 q.2.2.2 :: (emitAll (cnt + 1) rest).1)
    exact seqIds_cons rfl (ih (cnt + 1))

/-! ### Phase characterizations -/

@[simp] lemma genBind_ok {α β : Type} (a : α) (f : α → Except GenError β) :
    (Except.ok a >>= f : Except GenError β) = f a := rfl

@[simp] lemma genBind_error {α β : Type} (e : GenError)
    (f : α → Except GenError β) :
    (Except.error e >>= f : Except GenError β) = Except.error e := rfl

/-- A valid, always-resolvable table identifier: the engine comes from the
configured list and the index from `1 .. NUM_TABLES_PER_DB`. -/
def IsTableTarget (c : Config) (s : String) : Prop :=
  ∃ db ∈ c.DBS, ∃ k, 1 ≤ k ∧ k ≤ c.NUM_TABLES_PER_DB ∧ s = tableId db k

lemma gatewayEdges_ok {c : Config} {cnt : Nat} {r : RNG} {es : List Edge}
    {cnt' : Nat} {r' : RNG}
    (h : gatewayEdges c cnt r = .ok (es, cnt', r')) :
    ∃ targets r₀,
      sample (serviceIds c) c.NUM_API_GATEWAY_TARGETS r = .ok (targets, r₀) ∧
      es = (emitAll cnt (targets.map (fun t =>
        ("api_gateway_instance", t, "API Route", "api_gateway")))).1 ∧
      cnt' = cnt + es.length ∧ SeqIds cnt es ∧ r' = r₀ := by
  cases hs : sample (serviceIds c) c.NUM_API_GATEWAY_TARGETS r with
  | error e =>
    rw [gatewayEdges, hs] at h
    simp at h
  | ok tr =>
    obtain ⟨targets, r₀⟩ := tr
    rw [gatewayEdges, hs] at h
    simp only [genBind_ok, Except.ok.injEq, Prod.mk.injEq] at h
    refine ⟨targets, r₀, rfl, ?_, ?_, ?_, ?_⟩
    · rw [← h.1]
    · rw [← h.1, ← h.2.1, emitAll_cnt, emitAll_length]
    · rw [← h.1]
      exact emitAll_seqIds _ _
    · rw [← h.2.2]

lemma accessEdgesFor_ok {c : Config} {fid : String} :
    ∀ {n cnt : Nat} {r : RNG} {es : List Edge} {cnt' : Nat} {r' : RNG},
    accessEdgesFor c fid n cnt r = .ok (es, cnt', r') →
    es.length = n ∧ cnt' = cnt + n ∧ SeqIds cnt es ∧
      ∀ e ∈ es, e.source = fid ∧ e.label = "Reads/Writes" ∧
        e.layer = "table" ∧ IsTableTarget c e.target := by
  intro n
  induction n with
  | zero =>
    intro cnt r es cnt' r' h
    simp only [accessEdgesFor, Except.ok.injEq, Prod.mk.injEq] at h
    obtain ⟨h1, h2, h3⟩ := h
    subst h1
    subst h2
    exact ⟨rfl, by omega, seqIds_nil cnt, by simp⟩
  | succ n ih =>
    intro cnt r es cnt' r' h
    rw [accessEdgesFor] at h
    cases hc : choice c.DBS r with
    | error e => rw [hc] at h; simp at h
    | ok dbr =>
      obtain ⟨db, r₁⟩ := dbr
      rw [hc] at h
      simp only [genBind_ok] at h
      cases hri : randint 1 c.NUM_TABLES_PER_DB r₁ with
      | error e => rw [hri] at h; simp at h
      | ok kr =>
        obtain ⟨k, r₂⟩ := kr
        rw [hri] at h
        simp only [genBind_ok] at h
        cases hrec : accessEdgesFor c fid n (cnt + 1) r₂ with
        | error e => rw [hrec] at h; simp at h
        | ok out =>
          obtain ⟨es₀, cnt₀, r₃⟩ := out
          rw [hrec] at h
          simp only [genBind_ok, Except.ok.injEq, Prod.mk.injEq] at h
          obtain ⟨hlen, hcnt, hseq, hmem⟩ := ih hrec
          have hk := randint_ok hri
          have hdb : db ∈ c.DBS := choice_ok_mem hc
          obtain ⟨h1, h2, h3⟩ := h
          subst h1
          subst h2
          refine ⟨by simp [hlen], by omega, seqIds_cons rfl hseq, ?_⟩
          intro e he
          rcases List.mem_cons.mp he with he | he
          · rw [he]
            exact ⟨rfl, rfl, rfl, db, hdb, k, hk.1, hk.2, rfl⟩
          · exact hmem e he

lemma accessEdges_ok {c : Config} :
    ∀ (fs : List String) {cnt : Nat} {r : RNG} {es : List Edge} {cnt' : Nat}
      {r' : RNG},
    accessEdges c fs cnt r = .ok (es, cnt', r') →
    cnt' = cnt + es.length ∧ SeqIds cnt es ∧
      ∀ e ∈ es, e.source ∈ fs ∧ e.label = "Reads/Writes" ∧
        e.layer = "table" ∧ IsTableTarget c e.target := by
  intro fs
  induction fs with
  | nil =>
    intro cnt r es cnt' r' h
    simp only [accessEdges, Except.ok.injEq, Prod.mk.injEq] at h
    obtain ⟨h1, h2, h3⟩ := h
    subst h1
    subst h2
    exact ⟨by simp, seqIds_nil cnt, by simp⟩
  | cons f rest ih =>
    intro cnt r es cnt' r' h
    rw [accessEdges] at h
    cases hri : randint 3 7 r with
    | error e => rw [hri] at h; simp at h
    | ok nr =>
      obtain ⟨n₀, r₁⟩ := nr
      rw [hri] at h
      simp only [genBind_ok] at h
      cases hfor : accessEdgesFor c f n₀ cnt r₁ with
      | error e => rw [hfor] at h; simp at h
      | ok out₁ =>
        obtain ⟨es₁, cnt₁, r₂⟩ := out₁
        rw [hfor] at h
        simp only [genBind_ok] at h
        cases hrest : accessEdges c rest cnt₁ r₂ with
        | error e => rw [hrest] at h; simp at h
        | ok out₂ =>
          obtain ⟨es₂, cnt₂, r₃⟩ := out₂
          rw [hrest] at h
          simp only [genBind_ok, Except.ok.injEq, Prod.mk.injEq] at h
          obtain ⟨hl₁, hc₁, hs₁, hm₁⟩ := accessEdgesFor_ok hfor
          obtain ⟨hc₂, hs₂, hm₂⟩ := ih hrest
          obtain ⟨h1, h2, h3⟩ := h
          subst h1
          subst h2
          refine ⟨?_, ?_, ?_⟩
          · simp only [List.length_append]
            omega
          · refine seqIds_append hs₁ ?_
            have heq : cnt + es₁.length = cnt₁ := by omega
            rw [heq]
            exact hs₂
          · intro e he
            rcases List.mem_append.mp he with he | he
            · obtain ⟨hsrc, hlab, hlay, htt⟩ := hm₁ e he
              exact ⟨by rw [hsrc]; simp, hlab, hlay, htt⟩
            · obtain ⟨hsrc, hlab, hlay, htt⟩ := hm₂ e he
              exact ⟨by simp [hsrc], hlab, hlay, htt⟩

lemma procEdgesFor_ok {c : Config} {pid db : String} :
    ∀ {n cnt : Nat} {r : RNG} {es : List Edge} {cnt' : Nat} {r' : RNG},
    procEdgesFor c pid db n cnt r = .ok (es, cnt', r') →
    es.length = n ∧ cnt' = cnt + n ∧ SeqIds cnt es ∧
      ∀ e ∈ es, e.source = pid ∧ e.label = "Executes" ∧
        e.layer = "stored_proc" ∧
        ∃ k, 1 ≤ k ∧ k ≤ c.NUM_TABLES_PER_DB ∧ e.target = tableId db k := by
  intro n
  induction n with
  | zero =>
    intro cnt r es cnt' r' h
    simp only [procEdgesFor, Except.ok.injEq, Prod.mk.injEq] at h
    obtain ⟨h1, h2, h3⟩ := h
    subst h1
    subst h2
    exact ⟨rfl, by omega, seqIds_nil cnt, by simp⟩
  | succ n ih =>
    intro cnt r es cnt' r' h
    rw [procEdgesFor] at h
    cases hri : randint 1 c.NUM_TABLES_PER_DB r with
    | error e => rw [hri] at h; simp at h
    | ok kr =>
      obtain ⟨k, r₁⟩ := kr
      rw [hri] at h
      simp only [genBind_ok] at h
      cases hrec : procEdgesFor c pid db n (cnt + 1) r₁ with
      | error e => rw [hrec] at h; simp at h
      | ok out =>
        obtain ⟨es₀, cnt₀, r₂⟩ := out
        rw [hrec] at h
        simp only [genBind_ok, Except.ok.injEq, Prod.mk.injEq] at h
        obtain ⟨hlen, hcnt, hseq, hmem⟩ := ih hrec
        have hk := randint_ok hri
        obtain ⟨h1, h2, h3⟩ := h
        subst h1
        subst h2
        refine ⟨by simp [hlen], by omega, seqIds_cons rfl hseq, ?_⟩
        intro e he
        rcases List.mem_cons.mp he with he | he
        · rw [he]
          exact ⟨rfl, rfl, rfl, k, hk.1, hk.2, rfl⟩
        · exact hmem e he

/-- What the stored-procedure phase guarantees for one procedure: between
2 and 5 edges, all from that procedure, all executing tables of a single
engine drawn from the configured list. -/
def ProcGroup (c : Config) (pid : String) (g : List Edge) : Prop :=
  2 ≤ g.length ∧ g.length ≤ 5 ∧ ∃ db ∈ c.DBS, ∀ e ∈ g,
    e.source = pid ∧ e.label = "Executes" ∧ e.layer = "stored_proc" ∧
    ∃ k, 1 ≤ k ∧ k ≤ c.NUM_TABLES_PER_DB ∧ e.target = tableId db k

lemma procEdges_ok {c : Config} :
    ∀ (ps : List String) {cnt : Nat} {r : RNG} {es : List Edge} {cnt' : Nat}
      {r' : RNG},
    procEdges c ps cnt r = .ok (es, cnt', r') →
    cnt' = cnt + es.length ∧ SeqIds cnt es ∧
      ∃ groups : List (List Edge), es = groups.flatten ∧
        List.Forall₂ (ProcGroup c) ps groups := by
  intro ps
  induction ps with
  | nil =>
    intro cnt r es cnt' r' h
    simp only [procEdges, Except.ok.injEq, Prod.mk.injEq] at h
    obtain ⟨h1, h2, h3⟩ := h
    subst h1
    subst h2
    exact ⟨by simp, seqIds_nil cnt, [], rfl, List.Forall₂.nil⟩
  | cons p rest ih =>
    intro cnt r es cnt' r' h
    rw [procEdges] at h
    cases hc : choice c.DBS r with
    | error e => rw [hc] at h; simp at h
    | ok dbr =>
      obtain ⟨db, r₁⟩ := dbr
      rw [hc] at h
      simp only [genBind_ok] at h
      cases hri : randint 2 5 r₁ with
      | error e => rw [hri] at h; simp at h
      | ok nr =>
        obtain ⟨n₀, r₂⟩ := nr
        rw [hri] at h
        simp only [genBind_ok] at h
        cases hfor : procEdgesFor c p db n₀ cnt r₂ with
        | error e => rw [hfor] at h; simp at h
        | ok out₁ =>
          obtain ⟨es₁, cnt₁, r₃⟩ := out₁
          rw [hfor] at h
          simp only [genBind_ok] at h
          cases hrest : procEdges c rest cnt₁ r₃ with
          | error e => rw [hrest] at h; simp at h
          | ok out₂ =>
            obtain ⟨es₂, cnt₂, r₄⟩ := out₂
            rw [hrest] at h
            simp only [genBind_ok, Except.ok.injEq, Prod.mk.injEq] at h
            obtain ⟨hl₁, hc₁, hs₁, hm₁⟩ := procEdgesFor_ok hfor
            obtain ⟨hc₂, hs₂, groups, hflat, hfa⟩ := ih hrest
            have hn := randint_ok hri
            have hdb : db ∈ c.DBS := choice_ok_mem hc
            obtain ⟨h1, h2, h3⟩ := h
            subst h1
            subst h2
            refine ⟨?_, ?_, es₁ :: groups, by simp [hflat], ?_⟩
            · simp only [List.length_append]
              omega
            · refine seqIds_append hs₁ ?_
              have heq : cnt + es₁.length = cnt₁ := by omega
              rw [heq]
              exact hs₂
            · refine List.Forall₂.cons ?_ hfa
              exact ⟨by omega, by omega, db, hdb, hm₁⟩

lemma peerBatch_ok {srcPool tgtPool : List String} {lab lay : String} :
    ∀ {n cnt : Nat} {r : RNG} {es : List Edge} {cnt' : Nat} {r' : RNG},
    peerBatch srcPool tgtPool lab lay n cnt r = .ok (es, cnt', r') →
    es.length = n ∧ cnt' = cnt + n ∧ SeqIds cnt es ∧
      ∀ e ∈ es, e.source ∈ srcPool ∧ e.target ∈ tgtPool ∧
        e.label = lab ∧ e.layer = lay := by
  intro n
  induction n with
  | zero =>
    intro cnt r es cnt' r' h
    simp only [peerBatch, Except.ok.injEq, Prod.mk.injEq] at h
    obtain ⟨h1, h2, h3⟩ := h
    subst h1
    subst h2
    exact ⟨rfl, by omega, seqIds_nil cnt, by simp⟩
  | succ n ih =>
    intro cnt r es cnt' r' h
    rw [peerBatch] at h
    cases hcs : choice srcPool r with
    | error e => rw [hcs] at h; simp at h
    | ok sr =>
      obtain ⟨s, r₁⟩ := sr
      rw [hcs] at h
      simp only [genBind_ok] at h
      cases hct : choice tgtPool r₁ with
      | error e => rw [hct] at h; simp at h
      | ok tr =>
        obtain ⟨t, r₂⟩ := tr
        rw [hct] at h
        simp only [genBind_ok] at h
        cases hrec : peerBatch srcPool tgtPool lab lay n (cnt + 1) r₂ with
        | error e => rw [hrec] at h; simp at h
        | ok out =>
          obtain ⟨es₀, cnt₀, r₃⟩ := out
          rw [hrec] at h
          simp only [genBind_ok, Except.ok.injEq, Prod.mk.injEq] at h
          obtain ⟨hlen, hcnt, hseq, hmem⟩ := ih hrec
          obtain ⟨h1, h2, h3⟩ := h
          subst h1
          subst h2
          refine ⟨by simp [hlen], by omega, seqIds_cons rfl hseq, ?_⟩
          intro e he
          rcases List.mem_cons.mp he with he | he
          · rw [he]
            exact ⟨choice_ok_mem hcs, choice_ok_mem hct, rfl, rfl⟩
          · exact hmem e he

lemma s3Edges_ok {c : Config} {cnt : Nat} {r : RNG} {es : List Edge}
    {cnt' : Nat} {r' : RNG} (h : s3Edges c cnt r = .ok (es, cnt', r')) :
    ∃ conns r₀,
      sample (serviceIds c) c.NUM_S3_BUCKETS r = .ok (conns, r₀) ∧
      es = (emitAll cnt (((s3Ids c).zip conns).map (fun p =>
        (p.2, p.1, "Stores/Reads", "s3")))).1 ∧
      cnt' = cnt + es.length ∧ SeqIds cnt es ∧ r' = r₀ := by
  cases hs : sample (serviceIds c) c.NUM_S3_BUCKETS r with
  | error e =>
    rw [s3Edges, hs] at h
    simp at h
  | ok cr =>
    obtain ⟨conns, r₀⟩ := cr
    rw [s3Edges, hs] at h
    simp only [genBind_ok, Except.ok.injEq, Prod.mk.injEq] at h
    refine ⟨conns, r₀, rfl, ?_, ?_, ?_, ?_⟩
    · rw [← h.1]
    · rw [← h.1, ← h.2.1, emitAll_cnt, emitAll_length]
    · rw [← h.1]
      exact emitAll_seqIds _ _
    · rw [← h.2.2]

/-- Successful edge generation decomposes into the five policy phases, in
source order, with the counter threaded through. -/
lemma genEdges_ok {c : Config} {cnt : Nat} {r : RNG} {es : List Edge}
    {cnt' : Nat} {r' : RNG} (h : genEdges c cnt r = .ok (es, cnt', r')) :
    ∃ es₁ cnt₁ r₁ es₂ cnt₂ r₂ es₃ cnt₃ r₃ n₄ r₄ es₄ cnt₄ r₅ n₅ r₆ es₅ cnt₅
      r₇ es₆ cnt₆ r₈,
      gatewayEdges c cnt r = .ok (es₁, cnt₁, r₁) ∧
      accessEdges c (serviceIds c) cnt₁ r₁ = .ok (es₂, cnt₂, r₂) ∧
      procEdges c (procIds c) cnt₂ r₂ = .ok (es₃, cnt₃, r₃) ∧
      randint 10 20 r₃ = .ok (n₄, r₄) ∧
      peerBatch (containerIds c) (lambdaIds c) "API Call" "container"
        n₄ cnt₃ r₄ = .ok (es₄, cnt₄, r₅) ∧
      randint 10 20 r₅ = .ok (n₅, r₆) ∧
      peerBatch (lambdaIds c) (containerIds c) "API Call" "lambda"
        n₅ cnt₄ r₆ = .ok (es₅, cnt₅, r₇) ∧
      s3Edges c cnt₅ r₇ = .ok (es₆, cnt₆, r₈) ∧
      es = es₁ ++ es₂ ++ es₃ ++ es₄ ++ es₅ ++ es₆ ∧ cnt' = cnt₆ ∧
      r' = r₈ := by
  rw [genEdges] at h
  cases h₁ : gatewayEdges c cnt r with
  | error e => rw [h₁] at h; simp at h
  | ok o₁ =>
    obtain ⟨es₁, cnt₁, r₁⟩ := o₁
    rw [h₁] at h
    simp only [genBind_ok] at h
    cases h₂ : accessEdges c (serviceIds c) cnt₁ r₁ with
    | error e => rw [h₂] at h; simp at h
    | ok o₂ =>
      obtain ⟨es₂, cnt₂, r₂⟩ := o₂
      rw [h₂] at h
      simp only [genBind_ok] at h
      cases h₃ : procEdges c (procIds c) cnt₂ r₂ with
      | error e => rw [h₃] at h; simp at h
      | ok o₃ =>
        obtain ⟨es₃, cnt₃, r₃⟩ := o₃
        rw [h₃] at h
        simp only [genBind_ok] at h
        cases h₄ : randint 10 20 r₃ with
        | error e => rw [h₄] at h; simp at h
        | ok o₄ =>
          obtain ⟨n₄, r₄⟩ := o₄
          rw [h₄] at h
          simp only [genBind_ok] at h
          cases h₅ : peerBatch (containerIds c) (lambdaIds c) "API Call"
              "container" n₄ cnt₃ r₄ with
          | error e => rw [h₅] at h; simp at h
          | ok o₅ =>
            obtain ⟨es₄, cnt₄, r₅⟩ := o₅
            rw [h₅] at h
            simp only [genBind_ok] at h
            cases h₆ : randint 10 20 r₅ with
            | error e => rw [h₆] at h; simp at h
            | ok o₆ =>
              obtain ⟨n₅, r₆⟩ := o₆
              rw [h₆] at h
              simp only [genBind_ok] at h
              cases h₇ : peerBatch (lambdaIds c) (containerIds c) "API Call"
                  "lambda" n₅ cnt₄ r₆ with
              | error e => rw [h₇] at h; simp at h
              | ok o₇ =>
                obtain ⟨es₅, cnt₅, r₇⟩ := o₇
                rw [h₇] at h
                simp only [genBind_ok] at h
                cases h₈ : s3Edges c cnt₅ r₇ with
                | error e => rw [h₈] at h; simp at h
                | ok o₈ =>
                  obtain ⟨es₆, cnt₆, r₈⟩ := o₈
                  rw [h₈] at h
                  simp only [genBind_ok, Except.ok.injEq, Prod.mk.injEq] at h
                  exact ⟨es₁, cnt₁, r₁, es₂, cnt₂, r₂, es₃, cnt₃, r₃, n₄, r₄,
                    es₄, cnt₄, r₅, n₅, r₆, es₅, cnt₅, r₇, es₆, cnt₆, r₈,
                    rfl, h₂, h₃, h₄, h₅, h₆, h₇, h₈,
                    h.1.symm, h.2.1.symm, h.2.2.symm⟩

/-! ### Node-stage characterizations -/

lemma zip_map_fst {α β γ : Type} (l₁ : List α) (l₂ : List β) (f : α → γ)
    (h : l₁.length ≤ l₂.length) :
    (l₁.zip l₂).map (fun p => f p.1) = l₁.map f := by
  have h1 : (l₁.zip l₂).map (fun p => f p.1) =
      ((l₁.zip l₂).map Prod.fst).map f := by
    rw [List.map_map]
    rfl
  rw [h1, List.map_fst_zip l₁ l₂ h]

lemma zip_map_snd {α β γ : Type} (l₁ : List α) (l₂ : List β) (f : β → γ)
    (h : l₂.length ≤ l₁.length) :
    (l₁.zip l₂).map (fun p => f p.2) = l₂.map f := by
  have h1 : (l₁.zip l₂).map (fun p => f p.2) =
      ((l₁.zip l₂).map Prod.snd).map f := by
    rw [List.map_map]
    rfl
  rw [h1, List.map_snd_zip l₁ l₂ h]

lemma leafNodes_ok {n : Nat} {stem layer parent : String}
    {pool : List String} {ns : List Node} {pool' : List String}
    (h : leafNodes n stem layer parent pool = some (ns, pool')) :
    ∃ labs, drawN n pool = some (labs, pool') ∧ labs.length = n ∧
      pool = pool' ++ labs.reverse ∧
      ns = ((List.range n).zip labs).map (fun p =>
        mkNode (stem ++ Nat.repr (p.1 + 1)) p.2 layer false parent "") := by
  rw [leafNodes] at h
  cases hd : drawN n pool with
  | none => rw [hd] at h; simp at h
  | some lp =>
    obtain ⟨labs, pl⟩ := lp
    rw [hd] at h
    simp only [Option.some.injEq, Prod.mk.injEq] at h
    obtain ⟨hns, hpl⟩ := h
    subst hpl
    obtain ⟨hd1, hd2⟩ := drawN_some hd
    exact ⟨labs, rfl, hd2, hd1, hns.symm⟩

lemma dbNodes_ok {c : Config} : ∀ (dbs : List String) {pool : List String}
    {ns : List Node} {pool' : List String},
    dbNodes c dbs pool = some (ns, pool') →
    ∃ pairs : List (String × List String),
      pairs.map Prod.fst = dbs ∧
      (∀ pr ∈ pairs, (pr.2 : List String).length = c.NUM_TABLES_PER_DB) ∧
      pool = pool' ++ (pairs.flatMap (fun pr => pr.2)).reverse ∧
      ns = pairs.flatMap (fun pr =>
        mkNode pr.1 pr.1.toUpper "database" true "database" "" ::
        ((List.range c.NUM_TABLES_PER_DB).zip pr.2).map (fun q =>
          mkNode (tableId pr.1 (q.1 + 1)) q.2 "table" false pr.1 "")) := by
  intro dbs
  induction dbs with
  | nil =>
    intro pool ns pool' h
    simp only [dbNodes, Option.some.injEq, Prod.mk.injEq] at h
    exact ⟨[], rfl, by simp, by simp [h.2], by simp [← h.1]⟩
  | cons db rest ih =>
    intro pool ns pool' h
    rw [dbNodes] at h
    cases hd : drawN c.NUM_TABLES_PER_DB pool with
    | none => rw [hd] at h; simp at h
    | some lp =>
      obtain ⟨labs, pool₁⟩ := lp
      rw [hd] at h
      simp only at h
      cases hrec : dbNodes c rest pool₁ with
      | none => rw [hrec] at h; simp at h
      | some np =>
        obtain ⟨ns₁, pool₂⟩ := np
        rw [hrec] at h
        simp only [Option.some.injEq, Prod.mk.injEq] at h
        obtain ⟨pairs, hfst, hlen, hpool, hns⟩ := ih hrec
        obtain ⟨hd1, hd2⟩ := drawN_some hd
        refine ⟨(db, labs) :: pairs, ?_, ?_, ?_, ?_⟩
        · simp [hfst]
        · intro pr hpr
          rcases List.mem_cons.mp hpr with hpr | hpr
          · rw [hpr]
            exact hd2
          · exact hlen pr hpr
        · rw [hd1, hpool, ← h.2]
          simp
        · rw [← h.1, hns]
          simp

lemma procNodes_ok {c : Config} : ∀ (idxs : List Nat) {r : RNG}
    {ns : List Node} {r' : RNG},
    procNodes c idxs r = .ok (ns, r') →
    ∃ dbsPicked : List String, dbsPicked.length = idxs.length ∧
      (∀ d ∈ dbsPicked, d ∈ c.DBS) ∧
      ns = (idxs.zip dbsPicked).map (fun q =>
        mkNode ("stored_proc_" ++ Nat.repr (q.1 + 1))
          ("Stored Procedure " ++ Nat.repr (q.1 + 1)) "stored_proc" false
          q.2 "") := by
  intro idxs
  induction idxs with
  | nil =>
    intro r ns r' h
    simp only [procNodes, Except.ok.injEq, Prod.mk.injEq] at h
    exact ⟨[], rfl, by simp, by simp [← h.1]⟩
  | cons i rest ih =>
    intro r ns r' h
    rw [procNodes] at h
    cases hc : choice c.DBS r with
    | error e => rw [hc] at h; simp at h
    | ok dbr =>
      obtain ⟨db, r₁⟩ := dbr
      rw [hc] at h
      simp only [genBind_ok] at h
      cases hrec : procNodes c rest r₁ with
      | error e => rw [hrec] at h; simp at h
      | ok out =>
        obtain ⟨ns₁, r₂⟩ := out
        rw [hrec] at h
        simp only [genBind_ok, Except.ok.injEq, Prod.mk.injEq] at h
        obtain ⟨dbsPicked, hplen, hpmem, hpns⟩ := ih hrec
        refine ⟨db :: dbsPicked, by simp [hplen], ?_, ?_⟩
        · intro d hd
          rcases List.mem_cons.mp hd with hd | hd
          · rw [hd]
            exact choice_ok_mem hc
          · exact hpmem d hd
        · rw [← h.1, hpns]
          simp

lemma buildNodes_ok {c : Config} {p : Pools} {r : RNG} {ns : List Node}
    {pp : Pools} {rr : RNG} (h : buildNodes c p r = .ok (ns, pp, rr)) :
    ∃ dbns tpool lns lpool cns cpool pns r' sns spool,
      dbNodes c c.DBS p.database_table = some (dbns, tpool) ∧
      leafNodes c.NUM_LAMBDAS "lambda_" "lambda" "lambda" p.lambda_function
        = some (lns, lpool) ∧
      leafNodes c.NUM_CONTAINERS "container_" "container" "container"
        p.ecs_container = some (cns, cpool) ∧
      procNodes c (List.range c.NUM_STORED_PROCS) r = .ok (pns, r') ∧
      leafNodes c.NUM_S3_BUCKETS "s3_" "s3" "s3" p.s3_object_store
        = some (sns, spool) ∧
      ns = rootAndPartitions ++ dbns ++ lns ++ cns ++ pns ++
        [mkNode "api_gateway_instance" "API Gateway" "api_gateway" false
          "api_gateway" ""] ++ sns ∧
      pp = ⟨lpool, cpool, tpool, spool⟩ ∧ rr = r' := by
  rw [buildNodes] at h
  cases h₁ : dbNodes c c.DBS p.database_table with
  | none => rw [h₁] at h; simp at h
  | some o₁ =>
    obtain ⟨dbns, tpool⟩ := o₁
    rw [h₁] at h
    simp only at h
    cases h₂ : leafNodes c.NUM_LAMBDAS "lambda_" "lambda" "lambda"
        p.lambda_function with
    | none => rw [h₂] at h; simp at h
    | some o₂ =>
      obtain ⟨lns, lpool⟩ := o₂
      rw [h₂] at h
      simp only at h
      cases h₃ : leafNodes c.NUM_CONTAINERS "container_" "container"
          "container" p.ecs_container with
      | none => rw [h₃] at h; simp at h
      | some o₃ =>
        obtain ⟨cns, cpool⟩ := o₃
        rw [h₃] at h
        simp only at h
        cases h₄ : procNodes c (List.range c.NUM_STORED_PROCS) r with
        | error e => rw [h₄] at h; simp at h
        | ok o₄ =>
          obtain ⟨pns, r'⟩ := o₄
          rw [h₄] at h
          simp only at h
          cases h₅ : leafNodes c.NUM_S3_BUCKETS "s3_" "s3" "s3"
              p.s3_object_store with
          | none => rw [h₅] at h; simp at h
          | some o₅ =>
            obtain ⟨sns, spool⟩ := o₅
            rw [h₅] at h
            simp only [Except.ok.injEq, Prod.mk.injEq] at h
            exact ⟨dbns, tpool, lns, lpool, cns, cpool, pns, r', sns, spool,
              rfl, rfl, rfl, rfl, rfl, h.1.symm, h.2.1.symm, h.2.2.symm⟩

lemma run_ok {c : Config} {p : Pools} {r : RNG} {ns : List Node}
    {es : List Edge} (h : run c p r = .ok (ns, es)) :
    ∃ pp r' cnt' r'', buildNodes c p r = .ok (ns, pp, r') ∧
      genEdges c 1 r' = .ok (es, cnt', r'') := by
  rw [run] at h
  cases hb : buildNodes c p r with
  | error e => rw [hb] at h; simp at h
  | ok o₁ =>
    obtain ⟨ns₀, pp, r'⟩ := o₁
    rw [hb] at h
    simp only [genBind_ok] at h
    cases hg : genEdges c 1 r' with
    | error e => rw [hg] at h; simp at h
    | ok o₂ =>
      obtain ⟨es₀, cnt', r''⟩ := o₂
      rw [hg] at h
      simp only [genBind_ok, Except.ok.injEq, Prod.mk.injEq] at h
      obtain ⟨h1, h2⟩ := h
      subst h1
      subst h2
      exact ⟨pp, r', cnt', r'', rfl, hg⟩

/-! ### Distinctness of the identifier schemes -/

lemma stem_ids_injective (stem : String) :
    Function.Injective (fun i : Nat => stem ++ Nat.repr (i + 1)) := by
  intro a b hab
  have := stem_repr_inj stem hab
  omega

lemma stem_ids_nodup (stem : String) (n : Nat) :
    ((List.range n).map (fun i => stem ++ Nat.repr (i + 1))).Nodup :=
  (List.nodup_range n).map (stem_ids_injective stem)

lemma lambdaIds_nodup (c : Config) : (lambdaIds c).Nodup :=
  stem_ids_nodup "lambda_" c.NUM_LAMBDAS

lemma containerIds_nodup (c : Config) : (containerIds c).Nodup :=
  stem_ids_nodup "container_" c.NUM_CONTAINERS

lemma lambda_ne_container {s t : String} :
    "lambda_" ++ s ≠ "container_" ++ t :=
  @stem_append_ne "lambda_" "container_" 'l' 'c'
    ['a', 'm', 'b', 'd', 'a', '_'] ['o', 'n', 't', 'a', 'i', 'n', 'e', 'r', '_']
    rfl rfl (by decide) s t

lemma serviceIds_nodup (c : Config) : (serviceIds c).Nodup := by
  rw [serviceIds]
  refine List.Nodup.append (lambdaIds_nodup c) (containerIds_nodup c) ?_
  intro a ha hb
  obtain ⟨i, _, hi⟩ := List.mem_map.mp ha
  obtain ⟨j, _, hj⟩ := List.mem_map.mp hb
  rw [← hi] at hj
  exact lambda_ne_container hj.symm

lemma s3Ids_nodup (c : Config) : (s3Ids c).Nodup :=
  stem_ids_nodup "s3_" c.NUM_S3_BUCKETS

lemma serviceIds_length (c : Config) :
    (serviceIds c).length = c.NUM_LAMBDAS + c.NUM_CONTAINERS := by
  simp [serviceIds, lambdaIds, containerIds]

/-! ### Claim C6: edge ids come from the single shared counter -/

lemma seqIds_map_id {cnt : Nat} {es : List Edge} (h : SeqIds cnt es) :
    es.map Edge.id =
      (List.range es.length).map (fun i => "edge_" ++ Nat.repr (cnt + i)) := by
  apply List.ext_get (by simp)
  intro i h1 h2
  simp only [List.get_eq_getElem, List.getElem_map, List.getElem_range]
  have := h ⟨i, by simpa using h1⟩
  simpa using this

lemma genEdges_seqIds {c : Config} {cnt : Nat} {r : RNG} {es : List Edge}
    {cnt' : Nat} {r' : RNG} (h : genEdges c cnt r = .ok (es, cnt', r')) :
    SeqIds cnt es := by
  obtain ⟨es₁, cnt₁, r₁, es₂, cnt₂, r₂, es₃, cnt₃, r₃, n₄, r₄, es₄, cnt₄, r₅,
    n₅, r₆, es₅, cnt₅, r₇, es₆, cnt₆, r₈, h₁, h₂, h₃, h₄, h₅, h₆, h₇, h₈,
    heq, hcnt, hr⟩ := genEdges_ok h
  obtain ⟨_, _, _, _, hc1, hs1, _⟩ := gatewayEdges_ok h₁
  obtain ⟨hc2, hs2, _⟩ := accessEdges_ok _ h₂
  obtain ⟨hc3, hs3, _⟩ := procEdges_ok _ h₃
  obtain ⟨hl4, hc4, hs4, _⟩ := peerBatch_ok h₅
  obtain ⟨hl5, hc5, hs5, _⟩ := peerBatch_ok h₇
  obtain ⟨_, _, _, _, hc6, hs6, _⟩ := s3Edges_ok h₈
  subst heq
  have h12 : SeqIds cnt (es₁ ++ es₂) := by
    refine seqIds_append hs1 ?_
    have e1 : cnt + es₁.length = cnt₁ := by omega
    rw [e1]
    exact hs2
  have h13 : SeqIds cnt (es₁ ++ es₂ ++ es₃) := by
    refine seqIds_append h12 ?_
    have e2 : cnt + (es₁ ++ es₂).length = cnt₂ := by
      simp only [List.length_append]
      omega
    rw [e2]
    exact hs3
  have h14 : SeqIds cnt (es₁ ++ es₂ ++ es₃ ++ es₄) := by
    refine seqIds_append h13 ?_
    have e3 : cnt + (es₁ ++ es₂ ++ es₃).length = cnt₃ := by
      simp only [List.length_append]
      omega
    rw [e3]
    exact hs4
  have h15 : SeqIds cnt (es₁ ++ es₂ ++ es₃ ++ es₄ ++ es₅) := by
    refine seqIds_append h14 ?_
    have e4 : cnt + (es₁ ++ es₂ ++ es₃ ++ es₄).length = cnt₄ := by
      simp only [List.length_append]
      omega
    rw [e4]
    exact hs5
  refine seqIds_append h15 ?_
  have e5 : cnt + (es₁ ++ es₂ ++ es₃ ++ es₄ ++ es₅).length = cnt₅ := by
    simp only [List.length_append]
    omega
  rw [e5]
  exact hs6

/-- C6: edge ids are assigned by the single counter shared across all five
relationship policies in their execution order: the `n`-th edge emitted in
a successful run has id `edge_n` (1-based, in list order), and hence all
edge ids are distinct. -/
theorem edge_ids_sequential (c : Config) (p : Pools) (r : RNG)
    (ns : List Node) (es : List Edge) (h : run c p r = .ok (ns, es)) :
    (∀ i : Fin es.length, (es.get i).id = "edge_" ++ Nat.repr (i.val + 1)) ∧
    (es.map Edge.id).Nodup := by
  obtain ⟨pp, r', cnt', r'', hb, hg⟩ := run_ok h
  have hseq : SeqIds 1 es := genEdges_seqIds hg
  constructor
  · intro i
    have := hseq i
    rw [this, Nat.add_comm]
  · rw [seqIds_map_id hseq]
    refine (List.nodup_range es.length).map ?_
    intro a b hab
    have := stem_repr_inj "edge_" hab
    omega

/-- Witness for C6 at a concrete run. -/
def tinyConfig : Config := ⟨2, 2, 1, 1, 3, 1, ["mysql", "postgres"]⟩

def tinyPools : Pools :=
  ⟨["fnA", "fnB"], ["ctA"], ["tbA", "tbB", "tbC", "tbD"], ["bkA"]⟩

def tinyRNG : RNG := ⟨fun n => n, 0⟩

def tinyOut : List Node × List Edge :=
  ((run tinyConfig tinyPools tinyRNG).toOption).getD ([], [])

def tinyNodes : List Node := tinyOut.1

def tinyEdges : List Edge := tinyOut.2

theorem edge_ids_sequential_witness :
    run tinyConfig tinyPools tinyRNG = .ok (tinyNodes, tinyEdges) ∧
    ((∀ i : Fin tinyEdges.length,
        (tinyEdges.get i).id = "edge_" ++ Nat.repr (i.val + 1)) ∧
      (tinyEdges.map Edge.id).Nodup) :=
  ⟨rfl, edge_ids_sequential tinyConfig tinyPools tinyRNG tinyNodes tinyEdges
    rfl⟩

/-! ### Bundled decomposition of a successful edge-generation run -/

lemma emitAll_mem {cnt : Nat} {l : List (String × String × String × String)}
    {e : Edge} (he : e ∈ (emitAll cnt l).1) :
    (e.source, e.target, e.label, e.layer) ∈ l := by
  rw [← emitAll_quad cnt l]
  exact List.mem_map_of_mem _ he

lemma forall₂_mem_right {α β : Type} {R : α → β → Prop} :
    ∀ {as : List α} {bs : List β}, List.Forall₂ R as bs →
      ∀ b ∈ bs, ∃ a ∈ as, R a b := by
  intro as bs h
  induction h with
  | nil => simp
  | cons hR _ ih =>
    intro b hb
    rcases List.mem_cons.mp hb with hb | hb
    · exact ⟨_, by simp, hb ▸ hR⟩
    · obtain ⟨a, ha, haR⟩ := ih b hb
      exact ⟨a, by simp [ha], haR⟩

lemma subperm_nodup {l pop : List String} (h : List.Subperm l pop)
    (hn : pop.Nodup) : l.Nodup := by
  obtain ⟨l', hperm, hsub⟩ := h
  exact (List.Perm.nodup_iff hperm).mp (List.Nodup.sublist hsub hn)

lemma filter_all_eq {L : String} {es : List Edge}
    (h : ∀ e ∈ es, e.layer = L) :
    es.filter (fun e => e.layer == L) = es :=
  List.filter_eq_self.mpr (fun e he => by rw [h e he]; simp)

lemma filter_none_eq {L L' : String} {es : List Edge} (hL : L' ≠ L)
    (h : ∀ e ∈ es, e.layer = L') :
    es.filter (fun e => e.layer == L) = [] :=
  List.filter_eq_nil_iff.mpr (fun e he => by rw [h e he]; simp [hL])

/-- Everything the five phases guarantee about a successful edge run,
with the edge list split into its six per-phase blocks. -/
lemma genEdges_pieces {c : Config} {cnt : Nat} {r : RNG} {es : List Edge}
    {cnt' : Nat} {r' : RNG} (h : genEdges c cnt r = .ok (es, cnt', r')) :
    ∃ esG esA esP esC esL esS : List Edge,
      es = esG ++ esA ++ esP ++ esC ++ esL ++ esS ∧
      (∀ e ∈ esG, e.layer = "api_gateway") ∧
      (∀ e ∈ esA, e.layer = "table") ∧
      (∀ e ∈ esP, e.layer = "stored_proc") ∧
      (∀ e ∈ esC, e.layer = "container") ∧
      (∀ e ∈ esL, e.layer = "lambda") ∧
      (∀ e ∈ esS, e.layer = "s3") ∧
      (∃ targets, List.Subperm targets (serviceIds c) ∧
        targets.length = c.NUM_API_GATEWAY_TARGETS ∧
        esG.map Edge.target = targets ∧
        ∀ e ∈ esG, e.source = "api_gateway_instance" ∧
          e.label = "API Route") ∧
      (∀ e ∈ esA, e.source ∈ serviceIds c ∧ e.label = "Reads/Writes" ∧
        IsTableTarget c e.target) ∧
      (∃ groups : List (List Edge), esP = groups.flatten ∧
        List.Forall₂ (ProcGroup c) (procIds c) groups) ∧
      (∀ e ∈ esC, e.source ∈ containerIds c ∧ e.target ∈ lambdaIds c ∧
        e.label = "API Call") ∧
      (∀ e ∈ esL, e.source ∈ lambdaIds c ∧ e.target ∈ containerIds c ∧
        e.label = "API Call") ∧
      (∃ conns, List.Subperm conns (serviceIds c) ∧
        conns.length = c.NUM_S3_BUCKETS ∧
        esS.map (fun e => (e.source, e.target)) =
          ((s3Ids c).zip conns).map (fun p => (p.2, p.1)) ∧
        ∀ e ∈ esS, e.label = "Stores/Reads") := by
  obtain ⟨es₁, cnt₁, r₁, es₂, cnt₂, r₂, es₃, cnt₃, r₃, n₄, r₄, es₄, cnt₄, r₅,
    n₅, r₆, es₅, cnt₅, r₇, es₆, cnt₆, r₈, h₁, h₂, h₃, h₄, h₅, h₆, h₇, h₈,
    heq, hcnt, hr⟩ := genEdges_ok h
  obtain ⟨targets, r₀, hsamp, hes₁, _, _, _⟩ := gatewayEdges_ok h₁
  obtain ⟨_, _, hm₂⟩ := accessEdges_ok _ h₂
  obtain ⟨_, _, groups, hflat, hfa⟩ := procEdges_ok _ h₃
  obtain ⟨_, _, _, hm₄⟩ := peerBatch_ok h₅
  obtain ⟨_, _, _, hm₅⟩ := peerBatch_ok h₇
  obtain ⟨conns, rs, hsampS, hes₆, _, _, _⟩ := s3Edges_ok h₈
  obtain ⟨hsub, hlen⟩ := sample_ok hsamp
  obtain ⟨hsubS, hlenS⟩ := sample_ok hsampS
  refine ⟨es₁, es₂, es₃, es₄, es₅, es₆, heq, ?_, ?_, ?_, ?_, ?_, ?_,
    ?_, ?_, ⟨groups, hflat, hfa⟩, ?_, ?_, ?_⟩
  · intro e he
    rw [hes₁] at he
    have := emitAll_mem he
    obtain ⟨t, _, hq⟩ := List.mem_map.mp this
    exact (congrArg (fun q => q.2.2.2) hq).symm
  · intro e he
    exact (hm₂ e he).2.2.1
  · intro e he
    rw [hflat] at he
    obtain ⟨g, hg, heg⟩ := List.mem_flatten.mp he
    obtain ⟨pid, _, hpg⟩ := forall₂_mem_right hfa g hg
    obtain ⟨_, _, db, _, hprops⟩ := hpg
    exact (hprops e heg).2.2.1
  · intro e he
    exact (hm₄ e he).2.2.2
  · intro e he
    exact (hm₅ e he).2.2.2
  · intro e he
    rw [hes₆] at he
    have := emitAll_mem he
    obtain ⟨q, _, hq⟩ := List.mem_map.mp this
    exact (congrArg (fun z => z.2.2.2) hq).symm
  · refine ⟨targets, hsub, hlen, ?_, ?_⟩
    · rw [hes₁]
      have hq := emitAll_quad cnt (targets.map (fun t =>
        ("api_gateway_instance", t, "API Route", "api_gateway")))
      have : ((emitAll cnt (targets.map (fun t =>
          ("api_gateway_instance", t, "API Route", "api_gateway")))).1).map
            Edge.target =
          (((emitAll cnt (targets.map (fun t =>
            ("api_gateway_instance", t, "API Route",
              "api_gateway")))).1).map (fun e =>
                (e.source, e.target, e.label, e.layer))).map
            (fun q => q.2.1) := by
        rw [List.map_map]
        rfl
      rw [this, hq, List.map_map]
      show targets.map (fun t => t) = targets
      simp
    · intro e he
      rw [hes₁] at he
      have := emitAll_mem he
      obtain ⟨t, _, hq⟩ := List.mem_map.mp this
      exact ⟨(congrArg (fun q => q.1) hq).symm,
        (congrArg (fun q => q.2.2.1) hq).symm⟩
  · intro e he
    exact ⟨(hm₂ e he).1, (hm₂ e he).2.1, (hm₂ e he).2.2.2⟩
  · intro e he
    exact ⟨(hm₄ e he).1, (hm₄ e he).2.1, (hm₄ e he).2.2.1⟩
  · intro e he
    exact ⟨(hm₅ e he).1, (hm₅ e he).2.1, (hm₅ e he).2.2.1⟩
  · refine ⟨conns, hsubS, hlenS, ?_, ?_⟩
    · rw [hes₆]
      have hq := emitAll_quad cnt₅ ((((s3Ids c).zip conns)).map (fun p =>
        (p.2, p.1, "Stores/Reads", "s3")))
      have : ((emitAll cnt₅ ((((s3Ids c).zip conns)).map (fun p =>
          (p.2, p.1, "Stores/Reads", "s3")))).1).map
            (fun e => (e.source, e.target)) =
          (((emitAll cnt₅ ((((s3Ids c).zip conns)).map (fun p =>
            (p.2, p.1, "Stores/Reads", "s3")))).1).map (fun e =>
              (e.source, e.target, e.label, e.layer))).map
            (fun q => (q.1, q.2.1)) := by
        rw [List.map_map]
        rfl
      rw [this, hq, List.map_map]
      rfl
    · intro e he
      rw [hes₆] at he
      have := emitAll_mem he
      obtain ⟨q, _, hq⟩ := List.mem_map.mp this
      exact (congrArg (fun z => z.2.2.1) hq).symm

/-! ### Claim C2: gateway routing samples without replacement -/

/-- Extract one per-layer block of a successful run's edges by filtering,
using the pairwise distinct layer tags of the six blocks. -/
lemma filter_six {esG esA esP esC esL esS : List Edge} {L : String}
    (hG : ∀ e ∈ esG, e.layer = "api_gateway")
    (hA : ∀ e ∈ esA, e.layer = "table")
    (hP : ∀ e ∈ esP, e.layer = "stored_proc")
    (hC : ∀ e ∈ esC, e.layer = "container")
    (hL : ∀ e ∈ esL, e.layer = "lambda")
    (hS : ∀ e ∈ esS, e.layer = "s3") :
    ((L = "api_gateway" →
      (esG ++ esA ++ esP ++ esC ++ esL ++ esS).filter
        (fun e => e.layer == L) = esG) ∧
     (L = "stored_proc" →
      (esG ++ esA ++ esP ++ esC ++ esL ++ esS).filter
        (fun e => e.layer == L) = esP) ∧
     (L = "s3" →
      (esG ++ esA ++ esP ++ esC ++ esL ++ esS).filter
        (fun e => e.layer == L) = esS)) := by
  refine ⟨?_, ?_, ?_⟩
  · intro hL'
    subst hL'
    simp only [List.filter_append]
    rw [filter_all_eq hG, filter_none_eq (by decide) hA,
      filter_none_eq (by decide) hP, filter_none_eq (by decide) hC,
      filter_none_eq (by decide) hL, filter_none_eq (by decide) hS]
    simp
  · intro hL'
    subst hL'
    simp only [List.filter_append]
    rw [filter_all_eq hP, filter_none_eq (by decide) hG,
      filter_none_eq (by decide) hA, filter_none_eq (by decide) hC,
      filter_none_eq (by decide) hL, filter_none_eq (by decide) hS]
    simp
  · intro hL'
    subst hL'
    simp only [List.filter_append]
    rw [filter_all_eq hS, filter_none_eq (by decide) hG,
      filter_none_eq (by decide) hA, filter_none_eq (by decide) hP,
      filter_none_eq (by decide) hC, filter_none_eq (by decide) hL]
    simp

/-- Configuration used to exhibit the gateway failure mode: 5 routing
targets requested from a service population of 2. -/
def badGwConfig : Config := ⟨1, 1, 1, 1, 5, 1, ["mysql"]⟩

/-- C2: gateway routing samples its targets without replacement — in any
successful run the route edges (the edges of layer `api_gateway`) number
exactly `NUM_API_GATEWAY_TARGETS`, all start at the gateway instance, and
their targets are pairwise distinct members of the function/container id
population; when the requested count equals the population size the
targets are a permutation of the whole population (each service targeted
exactly once); and when the requested count exceeds the population, edge
generation fails with `insufficientPopulation`. -/
theorem gateway_routing_spec :
    (∀ (c : Config) (p : Pools) (r : RNG) (ns : List Node) (es : List Edge),
      run c p r = .ok (ns, es) →
      (es.filter (fun e => e.layer == "api_gateway")).length =
        c.NUM_API_GATEWAY_TARGETS ∧
      (∀ e ∈ es.filter (fun e => e.layer == "api_gateway"),
        e.source = "api_gateway_instance" ∧ e.target ∈ serviceIds c) ∧
      ((es.filter (fun e => e.layer == "api_gateway")).map
        Edge.target).Nodup ∧
      (c.NUM_API_GATEWAY_TARGETS = (serviceIds c).length →
        List.Perm ((es.filter (fun e => e.layer == "api_gateway")).map
          Edge.target) (serviceIds c))) ∧
    (∀ (c : Config) (r : RNG),
      (serviceIds c).length < c.NUM_API_GATEWAY_TARGETS →
      genEdges c 1 r = .error .insufficientPopulation) := by
  constructor
  · intro c p r ns es h
    obtain ⟨pp, r', cnt', r'', hb, hg⟩ := run_ok h
    obtain ⟨esG, esA, esP, esC, esL, esS, heq, hG, hA, hP, hC, hL, hS,
      ⟨targets, hsub, hlen, hmapT, hGsrc⟩, _, _, _, _, _⟩ :=
      genEdges_pieces hg
    have hfilter : es.filter (fun e => e.layer == "api_gateway") = esG := by
      rw [heq]
      exact (filter_six hG hA hP hC hL hS).1 rfl
    rw [hfilter]
    have hlenG : esG.length = c.NUM_API_GATEWAY_TARGETS := by
      have := congrArg List.length hmapT
      simpa [hlen] using this
    refine ⟨hlenG, ?_, ?_, ?_⟩
    · intro e he
      refine ⟨(hGsrc e he).1, ?_⟩
      have : e.target ∈ esG.map Edge.target := List.mem_map_of_mem _ he
      rw [hmapT] at this
      exact hsub.subset this
    · rw [hmapT]
      exact subperm_nodup hsub (serviceIds_nodup c)
    · intro hpop
      rw [hmapT]
      exact List.Subperm.perm_of_length_le hsub (by omega)
  · intro c r hlt
    have hs : sample (serviceIds c) c.NUM_API_GATEWAY_TARGETS r =
        .error .insufficientPopulation := sample_error hlt
    rw [genEdges, gatewayEdges, hs]
    rfl

/-- Witness for C2: the tiny run requests exactly as many gateway targets
as there are services (3 of 3), and the failure configuration requests 5
of 2. -/
theorem gateway_routing_spec_witness :
    (run tinyConfig tinyPools tinyRNG = .ok (tinyNodes, tinyEdges) ∧
      (tinyEdges.filter (fun e => e.layer == "api_gateway")).length =
        tinyConfig.NUM_API_GATEWAY_TARGETS ∧
      (∀ e ∈ tinyEdges.filter (fun e => e.layer == "api_gateway"),
        e.source = "api_gateway_instance" ∧
          e.target ∈ serviceIds tinyConfig) ∧
      ((tinyEdges.filter (fun e => e.layer == "api_gateway")).map
        Edge.target).Nodup ∧
      (tinyConfig.NUM_API_GATEWAY_TARGETS =
          (serviceIds tinyConfig).length →
        List.Perm ((tinyEdges.filter (fun e => e.layer == "api_gateway")).map
          Edge.target) (serviceIds tinyConfig))) ∧
    ((serviceIds badGwConfig).length <
        badGwConfig.NUM_API_GATEWAY_TARGETS ∧
      genEdges badGwConfig 1 tinyRNG = .error .insufficientPopulation) :=
  ⟨⟨rfl, gateway_routing_spec.1 tinyConfig tinyPools tinyRNG tinyNodes
      tinyEdges rfl⟩,
   ⟨by decide, gateway_routing_spec.2 badGwConfig tinyRNG (by decide)⟩⟩

/-! ### Progress lemmas: the first four phases cannot fail under a
viable configuration, so a storage-binding failure surfaces as the run's
error -/

lemma sample_progress {pop : List String} {k : Nat} (h : k ≤ pop.length)
    (r : RNG) : ∃ l r', sample pop k r = .ok (l, r') := by
  rw [sample, if_neg (by omega)]
  exact ⟨_, _, rfl⟩

lemma gatewayEdges_progress {c : Config}
    (h : c.NUM_API_GATEWAY_TARGETS ≤ (serviceIds c).length) (cnt : Nat)
    (r : RNG) : ∃ out, gatewayEdges c cnt r = .ok out := by
  obtain ⟨l, r', hs⟩ := sample_progress h r
  rw [gatewayEdges, hs]
  exact ⟨_, rfl⟩

lemma accessEdgesFor_progress {c : Config} {fid : String}
    (hdbs : c.DBS ≠ []) (htab : 1 ≤ c.NUM_TABLES_PER_DB) :
    ∀ (n cnt : Nat) (r : RNG), ∃ out,
      accessEdgesFor c fid n cnt r = .ok out := by
  intro n
  induction n with
  | zero => intro cnt r; exact ⟨_, rfl⟩
  | succ n ih =>
    intro cnt r
    obtain ⟨db, r₁, hc⟩ := choice_progress hdbs r
    obtain ⟨k, r₂, hri⟩ := randint_progress htab r₁
    obtain ⟨out, hrec⟩ := ih (cnt + 1) r₂
    rw [accessEdgesFor, hc]
    simp only [genBind_ok]
    rw [hri]
    simp only [genBind_ok]
    rw [hrec]
    exact ⟨_, rfl⟩

lemma accessEdges_progress {c : Config} (hdbs : c.DBS ≠ [])
    (htab : 1 ≤ c.NUM_TABLES_PER_DB) :
    ∀ (fs : List String) (cnt : Nat) (r : RNG), ∃ out,
      accessEdges c fs cnt r = .ok out := by
  intro fs
  induction fs with
  | nil => intro cnt r; exact ⟨_, rfl⟩
  | cons f rest ih =>
    intro cnt r
    obtain ⟨n₀, r₁, hri⟩ := randint_progress (by omega : (3:Nat) ≤ 7) r
    obtain ⟨out₁, hfor⟩ := accessEdgesFor_progress hdbs htab n₀ cnt r₁
    obtain ⟨out₂, hrest⟩ := ih out₁.2.1 out₁.2.2
    rw [accessEdges, hri]
    simp only [genBind_ok]
    rw [hfor]
    simp only [genBind_ok]
    rw [hrest]
    exact ⟨_, rfl⟩

lemma procEdgesFor_progress {c : Config} {pid db : String}
    (htab : 1 ≤ c.NUM_TABLES_PER_DB) :
    ∀ (n cnt : Nat) (r : RNG), ∃ out,
      procEdgesFor c pid db n cnt r = .ok out := by
  intro n
  induction n with
  | zero => intro cnt r; exact ⟨_, rfl⟩
  | succ n ih =>
    intro cnt r
    obtain ⟨k, r₁, hri⟩ := randint_progress htab r
    obtain ⟨out, hrec⟩ := ih (cnt + 1) r₁
    rw [procEdgesFor, hri]
    simp only [genBind_ok]
    rw [hrec]
    exact ⟨_, rfl⟩

lemma procEdges_progress {c : Config} (hdbs : c.DBS ≠ [])
    (htab : 1 ≤ c.NUM_TABLES_PER_DB) :
    ∀ (ps : List String) (cnt : Nat) (r : RNG), ∃ out,
      procEdges c ps cnt r = .ok out := by
  intro ps
  induction ps with
  | nil => intro cnt r; exact ⟨_, rfl⟩
  | cons pid rest ih =>
    intro cnt r
    obtain ⟨db, r₁, hc⟩ := choice_progress hdbs r
    obtain ⟨n₀, r₂, hri⟩ := randint_progress (by omega : (2:Nat) ≤ 5) r₁
    obtain ⟨out₁, hfor⟩ := procEdgesFor_progress htab n₀ cnt r₂
    obtain ⟨out₂, hrest⟩ := ih out₁.2.1 out₁.2.2
    rw [procEdges, hc]
    simp only [genBind_ok]
    rw [hri]
    simp only [genBind_ok]
    rw [hfor]
    simp only [genBind_ok]
    rw [hrest]
    exact ⟨_, rfl⟩

lemma peerBatch_progress {srcPool tgtPool : List String} {lab lay : String}
    (hsrc : srcPool ≠ []) (htgt : tgtPool ≠ []) :
    ∀ (n cnt : Nat) (r : RNG), ∃ out,
      peerBatch srcPool tgtPool lab lay n cnt r = .ok out := by
  intro n
  induction n with
  | zero => intro cnt r; exact ⟨_, rfl⟩
  | succ n ih =>
    intro cnt r
    obtain ⟨s, r₁, hcs⟩ := choice_progress hsrc r
    obtain ⟨t, r₂, hct⟩ := choice_progress htgt r₁
    obtain ⟨out, hrec⟩ := ih (cnt + 1) r₂
    rw [peerBatch, hcs]
    simp only [genBind_ok]
    rw [hct]
    simp only [genBind_ok]
    rw [hrec]
    exact ⟨_, rfl⟩

lemma lambdaIds_ne_nil {c : Config} (h : 1 ≤ c.NUM_LAMBDAS) :
    lambdaIds c ≠ [] := by
  rw [lambdaIds]
  simp only [ne_eq, List.map_eq_nil_iff, List.range_eq_nil]
  omega

lemma containerIds_ne_nil {c : Config} (h : 1 ≤ c.NUM_CONTAINERS) :
    containerIds c ≠ [] := by
  rw [containerIds]
  simp only [ne_eq, List.map_eq_nil_iff, List.range_eq_nil]
  omega

/-! ### Claim C3: storage bindings -/

/-- Configuration used to exhibit the storage-binding failure mode: 3
object stores but a service population of only 2. -/
def badS3Config : Config := ⟨1, 1, 1, 1, 1, 3, ["mysql"]⟩

/-- C3: storage bindings sample services without replacement — in any
successful run there is exactly one binding edge (layer `s3`) per
object-store node, the targets are exactly the object-store ids in order,
the sources are pairwise distinct service ids; and when the object-store
count exceeds the service population (all other phases being viable),
edge generation fails with `insufficientPopulation`. -/
theorem storage_bindings_spec :
    (∀ (c : Config) (p : Pools) (r : RNG) (ns : List Node) (es : List Edge),
      run c p r = .ok (ns, es) →
      (es.filter (fun e => e.layer == "s3")).length = c.NUM_S3_BUCKETS ∧
      (es.filter (fun e => e.layer == "s3")).map Edge.target = s3Ids c ∧
      ((es.filter (fun e => e.layer == "s3")).map Edge.target).Nodup ∧
      ((es.filter (fun e => e.layer == "s3")).map Edge.source).Nodup ∧
      (∀ e ∈ es.filter (fun e => e.layer == "s3"),
        e.source ∈ serviceIds c)) ∧
    (∀ (c : Config) (r : RNG), c.DBS ≠ [] → 1 ≤ c.NUM_TABLES_PER_DB →
      1 ≤ c.NUM_LAMBDAS → 1 ≤ c.NUM_CONTAINERS →
      c.NUM_API_GATEWAY_TARGETS ≤ (serviceIds c).length →
      (serviceIds c).length < c.NUM_S3_BUCKETS →
      genEdges c 1 r = .error .insufficientPopulation) := by
  constructor
  · intro c p r ns es h
    obtain ⟨pp, r', cnt', r'', hb, hg⟩ := run_ok h
    obtain ⟨esG, esA, esP, esC, esL, esS, heq, hG, hA, hP, hC, hL, hS,
      _, _, _, _, _, ⟨conns, hsub, hlenC, hpair, _⟩⟩ := genEdges_pieces hg
    have hfilter : es.filter (fun e => e.layer == "s3") = esS := by
      rw [heq]
      exact (filter_six hG hA hP hC hL hS).2.2 rfl
    rw [hfilter]
    have hs3len : (s3Ids c).length = c.NUM_S3_BUCKETS := by
      simp [s3Ids]
    have hmapT : esS.map Edge.target = s3Ids c := by
      have h1 : esS.map Edge.target =
          (esS.map (fun e => (e.source, e.target))).map (fun q => q.2) := by
        rw [List.map_map]
        rfl
      rw [h1, hpair, List.map_map]
      have h2 : ((fun q : String × String => q.2) ∘
          (fun p : String × String => (p.2, p.1))) = fun p => p.1 := rfl
      rw [h2]
      exact (congrArg _ rfl).trans
        (zip_map_fst (s3Ids c) conns (fun p => p) (by omega) |>.trans
          (by simp))
    have hmapS : esS.map Edge.source = conns := by
      have h1 : esS.map Edge.source =
          (esS.map (fun e => (e.source, e.target))).map (fun q => q.1) := by
        rw [List.map_map]
        rfl
      rw [h1, hpair, List.map_map]
      have h2 : ((fun q : String × String => q.1) ∘
          (fun p : String × String => (p.2, p.1))) = fun p => p.2 := rfl
      rw [h2]
      exact (zip_map_snd (s3Ids c) conns (fun p => p) (by omega)).trans
        (by simp)
    refine ⟨?_, hmapT, ?_, ?_, ?_⟩
    · have := congrArg List.length hmapT
      simpa [hs3len] using this
    · rw [hmapT]
      exact s3Ids_nodup c
    · rw [hmapS]
      exact subperm_nodup hsub (serviceIds_nodup c)
    · intro e he
      have : e.source ∈ esS.map Edge.source := List.mem_map_of_mem _ he
      rw [hmapS] at this
      exact hsub.subset this
  · intro c r hdbs htab hlam hcon hgw hs3
    obtain ⟨o₁, h₁⟩ := gatewayEdges_progress hgw 1 r
    obtain ⟨o₂, h₂⟩ := accessEdges_progress hdbs htab (serviceIds c)
      o₁.2.1 o₁.2.2
    obtain ⟨o₃, h₃⟩ := procEdges_progress hdbs htab (procIds c)
      o₂.2.1 o₂.2.2
    obtain ⟨n₄, r₄, h₄⟩ := randint_progress (by omega : (10:Nat) ≤ 20) o₃.2.2
    obtain ⟨o₅, h₅⟩ := peerBatch_progress (containerIds_ne_nil hcon)
      (lambdaIds_ne_nil hlam) n₄ o₃.2.1 r₄
    obtain ⟨n₅, r₆, h₆⟩ := randint_progress (by omega : (10:Nat) ≤ 20) o₅.2.2
    obtain ⟨o₇, h₇⟩ := peerBatch_progress (lambdaIds_ne_nil hlam)
      (containerIds_ne_nil hcon) n₅ o₅.2.1 r₆
    have hserr : sample (serviceIds c) c.NUM_S3_BUCKETS o₇.2.2 =
        .error .insufficientPopulation := sample_error hs3
    rw [genEdges, h₁]
    simp only [genBind_ok]
    rw [h₂]
    simp only [genBind_ok]
    rw [h₃]
    simp only [genBind_ok]
    rw [h₄]
    simp only [genBind_ok]
    rw [h₅]
    simp only [genBind_ok]
    rw [h₆]
    simp only [genBind_ok]
    rw [h₇]
    simp only [genBind_ok]
    rw [s3Edges, hserr]
    rfl

/-- Witness for C3: the tiny run binds its single bucket, and the failure
configuration requests 3 bindings from a population of 2. -/
theorem storage_bindings_spec_witness :
    (run tinyConfig tinyPools tinyRNG = .ok (tinyNodes, tinyEdges) ∧
      (tinyEdges.filter (fun e => e.layer == "s3")).length =
        tinyConfig.NUM_S3_BUCKETS ∧
      (tinyEdges.filter (fun e => e.layer == "s3")).map Edge.target =
        s3Ids tinyConfig ∧
      ((tinyEdges.filter (fun e => e.layer == "s3")).map
        Edge.target).Nodup ∧
      ((tinyEdges.filter (fun e => e.layer == "s3")).map
        Edge.source).Nodup ∧
      (∀ e ∈ tinyEdges.filter (fun e => e.layer == "s3"),
        e.source ∈ serviceIds tinyConfig)) ∧
    (badS3Config.DBS ≠ [] ∧ 1 ≤ badS3Config.NUM_TABLES_PER_DB ∧
      1 ≤ badS3Config.NUM_LAMBDAS ∧ 1 ≤ badS3Config.NUM_CONTAINERS ∧
      badS3Config.NUM_API_GATEWAY_TARGETS ≤
        (serviceIds badS3Config).length ∧
      (serviceIds badS3Config).length < badS3Config.NUM_S3_BUCKETS ∧
      genEdges badS3Config 1 tinyRNG = .error .insufficientPopulation) :=
  ⟨⟨rfl, storage_bindings_spec.1 tinyConfig tinyPools tinyRNG tinyNodes
      tinyEdges rfl⟩,
   ⟨by decide, by decide, by decide, by decide, by decide, by decide,
    storage_bindings_spec.2 badS3Config tinyRNG (by decide) (by decide)
      (by decide) (by decide) (by decide) (by decide)⟩⟩

/-! ### Claim C8: stored-procedure execution -/

/-- C8: in any successful run, the stored-procedure execution edges (layer
`stored_proc`) split, in order, into one group per procedure: each group
has between 2 and 5 edges (inclusive), all from that procedure, and there
is a single randomly chosen engine from the configured list such that
every edge of the group targets a table of that engine with index in
`1 .. NUM_TABLES_PER_DB` (chosen with replacement, so duplicate targets
inside a group are permitted and no distinctness is claimed). -/
theorem stored_proc_execution (c : Config) (p : Pools) (r : RNG)
    (ns : List Node) (es : List Edge) (h : run c p r = .ok (ns, es)) :
    ∃ groups : List (List Edge),
      es.filter (fun e => e.layer == "stored_proc") = groups.flatten ∧
      List.Forall₂ (ProcGroup c) (procIds c) groups := by
  obtain ⟨pp, r', cnt', r'', hb, hg⟩ := run_ok h
  obtain ⟨esG, esA, esP, esC, esL, esS, heq, hG, hA, hP, hC, hL, hS,
    _, _, ⟨groups, hflat, hfa⟩, _, _, _⟩ := genEdges_pieces hg
  refine ⟨groups, ?_, hfa⟩
  rw [heq, (filter_six hG hA hP hC hL hS).2.1 rfl, hflat]

/-- Witness for C8 at the tiny run. -/
theorem stored_proc_execution_witness :
    run tinyConfig tinyPools tinyRNG = .ok (tinyNodes, tinyEdges) ∧
    ∃ groups : List (List Edge),
      tinyEdges.filter (fun e => e.layer == "stored_proc") =
        groups.flatten ∧
      List.Forall₂ (ProcGroup tinyConfig) (procIds tinyConfig) groups :=
  ⟨rfl, stored_proc_execution tinyConfig tinyPools tinyRNG tinyNodes
    tinyEdges rfl⟩

/-! ### Claim C4: referential integrity of edges -/

lemma leafNodes_map_id {n : Nat} {stem layer parent : String}
    {pool : List String} {ns : List Node} {pool' : List String}
    (h : leafNodes n stem layer parent pool = some (ns, pool')) :
    ns.map Node.id = (List.range n).map (fun i => stem ++ Nat.repr (i + 1)) := by
  obtain ⟨labs, _, hlen, _, hns⟩ := leafNodes_ok h
  rw [hns, List.map_map]
  exact zip_map_fst (List.range n) labs (fun i => stem ++ Nat.repr (i + 1))
    (by simp [hlen])

lemma procNodes_map_id {c : Config} {idxs : List Nat} {r : RNG}
    {ns : List Node} {r' : RNG} (h : procNodes c idxs r = .ok (ns, r')) :
    ns.map Node.id = idxs.map (fun i => "stored_proc_" ++ Nat.repr (i + 1)) := by
  obtain ⟨dbsPicked, hplen, _, hns⟩ := procNodes_ok _ h
  rw [hns, List.map_map]
  exact zip_map_fst idxs dbsPicked
    (fun i => "stored_proc_" ++ Nat.repr (i + 1)) (by omega)

/-- All identifier families that edges may reference are present among
the produced node ids. -/
lemma buildNodes_ids {c : Config} {p : Pools} {r : RNG} {ns : List Node}
    {pp : Pools} {rr : RNG} (h : buildNodes c p r = .ok (ns, pp, rr)) :
    "api_gateway_instance" ∈ ns.map Node.id ∧
    (∀ s ∈ serviceIds c, s ∈ ns.map Node.id) ∧
    (∀ s ∈ procIds c, s ∈ ns.map Node.id) ∧
    (∀ s ∈ s3Ids c, s ∈ ns.map Node.id) ∧
    (∀ s, IsTableTarget c s → s ∈ ns.map Node.id) := by
  obtain ⟨dbns, tpool, lns, lpool, cns, cpool, pns, r', sns, spool,
    h₁, h₂, h₃, h₄, h₅, hns, hpp, hrr⟩ := buildNodes_ok h
  have hmem : ∀ x : String,
      (x ∈ dbns.map Node.id ∨ x ∈ lns.map Node.id ∨ x ∈ cns.map Node.id ∨
        x ∈ pns.map Node.id ∨ x = "api_gateway_instance" ∨
        x ∈ sns.map Node.id) → x ∈ ns.map Node.id := by
    intro x hx
    rw [hns]
    simp only [List.map_append, List.mem_append, List.map_cons,
      List.mem_cons]
    rcases hx with hx | hx | hx | hx | hx | hx
    · exact Or.inl (Or.inl (Or.inl (Or.inl (Or.inl (Or.inr hx)))))
    · exact Or.inl (Or.inl (Or.inl (Or.inl (Or.inr hx))))
    · exact Or.inl (Or.inl (Or.inl (Or.inr hx)))
    · exact Or.inl (Or.inl (Or.inr hx))
    · exact Or.inl (Or.inr (by simp [mkNode, hx]))
    · exact Or.inr hx
  have hlns := leafNodes_map_id h₂
  have hcns := leafNodes_map_id h₃
  have hsns := leafNodes_map_id h₅
  have hpns := procNodes_map_id h₄
  refine ⟨hmem _ (Or.inr (Or.inr (Or.inr (Or.inr (Or.inl rfl))))),
    ?_, ?_, ?_, ?_⟩
  · intro s hs
    rcases List.mem_append.mp hs with hs | hs
    · exact hmem s (Or.inr (Or.inl (by rw [hlns]; exact hs)))
    · exact hmem s (Or.inr (Or.inr (Or.inl (by rw [hcns]; exact hs))))
  · intro s hs
    exact hmem s (Or.inr (Or.inr (Or.inr (Or.inl
      (by rw [hpns]; exact hs)))))
  · intro s hs
    exact hmem s (Or.inr (Or.inr (Or.inr (Or.inr (Or.inr
      (by rw [hsns]; exact hs))))))
  · intro s hs
    obtain ⟨db, hdb, k, hk1, hk2, hsid⟩ := hs
    obtain ⟨pairs, hfst, hplen, _, hdbns⟩ := dbNodes_ok _ h₁
    refine hmem s (Or.inl ?_)
    rw [hdbns, List.map_flatMap]
    apply List.mem_flatMap.mpr
    rw [← hfst] at hdb
    obtain ⟨pr, hpr, hprdb⟩ := List.mem_map.mp hdb
    refine ⟨pr, hpr, ?_⟩
    simp only [List.map_cons, List.mem_cons]
    right
    rw [List.map_map]
    have hzip := zip_map_fst (List.range c.NUM_TABLES_PER_DB) pr.2
      (fun i => tableId pr.1 (i + 1)) (by simp [hplen pr hpr])
    refine (by exact hzip :
      ((List.range c.NUM_TABLES_PER_DB).zip pr.2).map _ =
        (List.range c.NUM_TABLES_PER_DB).map _) ▸ ?_
    apply List.mem_map.mpr
    refine ⟨k - 1, by apply List.mem_range.mpr; omega, ?_⟩
    rw [hsid, hprdb]
    have : k - 1 + 1 = k := by omega
    rw [this]

/-- C4: in any successful run, every edge's source and target are ids of
nodes present in the produced node collection; moreover every table-access
and stored-procedure edge targets a table id built from a configured
engine and an index in `1 .. NUM_TABLES_PER_DB`. -/
theorem edge_referential_integrity (c : Config) (p : Pools) (r : RNG)
    (ns : List Node) (es : List Edge) (h : run c p r = .ok (ns, es)) :
    (∀ e ∈ es, e.source ∈ ns.map Node.id ∧ e.target ∈ ns.map Node.id) ∧
    (∀ e ∈ es, e.layer = "table" ∨ e.layer = "stored_proc" →
      IsTableTarget c e.target) := by
  obtain ⟨pp, r', cnt', r'', hb, hg⟩ := run_ok h
  obtain ⟨hapi, hsvc, hproc, hs3m, htab⟩ := buildNodes_ids hb
  obtain ⟨esG, esA, esP, esC, esL, esS, heq, hG, hA, hP, hC, hL, hS,
    ⟨targets, hsubG, hlenG, hmapG, hGsrc⟩, hAm, ⟨groups, hflat, hfa⟩,
    hCm, hLm, ⟨conns, hsubS, hlenS, hpairS, _⟩⟩ := genEdges_pieces hg
  have hsvcL : ∀ s ∈ lambdaIds c, s ∈ ns.map Node.id := by
    intro s hs
    exact hsvc s (by rw [serviceIds]; exact List.mem_append.mpr (Or.inl hs))
  have hsvcC : ∀ s ∈ containerIds c, s ∈ ns.map Node.id := by
    intro s hs
    exact hsvc s (by rw [serviceIds]; exact List.mem_append.mpr (Or.inr hs))
  have hcase : ∀ e ∈ es, e ∈ esG ∨ e ∈ esA ∨ e ∈ esP ∨ e ∈ esC ∨
      e ∈ esL ∨ e ∈ esS := by
    intro e he
    rw [heq] at he
    simp only [List.mem_append] at he
    tauto
  have hprocE : ∀ e ∈ esP, (∃ pid ∈ procIds c, e.source = pid) ∧
      IsTableTarget c e.target := by
    intro e he
    rw [hflat] at he
    obtain ⟨g, hgmem, heg⟩ := List.mem_flatten.mp he
    obtain ⟨pid, hpid, hpg⟩ := forall₂_mem_right hfa g hgmem
    obtain ⟨_, _, db, hdb, hprops⟩ := hpg
    obtain ⟨hsrc, _, _, k, hk1, hk2, htgt⟩ := hprops e heg
    exact ⟨⟨pid, hpid, hsrc⟩, db, hdb, k, hk1, hk2, htgt⟩
  have hs3E : ∀ e ∈ esS, e.source ∈ serviceIds c ∧ e.target ∈ s3Ids c := by
    intro e he
    have hpe : (e.source, e.target) ∈
        esS.map (fun e => (e.source, e.target)) :=
      List.mem_map_of_mem _ he
    rw [hpairS] at hpe
    obtain ⟨q, hq, hqe⟩ := List.mem_map.mp hpe
    obtain ⟨hq1, hq2⟩ := List.of_mem_zip hq
    have h1 : e.source = q.2 := (congrArg Prod.fst hqe).symm
    have h2 : e.target = q.1 := (congrArg Prod.snd hqe).symm
    exact ⟨h1 ▸ hsubS.subset hq2, h2 ▸ hq1⟩
  constructor
  · intro e he
    rcases hcase e he with hee | hee | hee | hee | hee | hee
    · refine ⟨by rw [(hGsrc e hee).1]; exact hapi, ?_⟩
      have : e.target ∈ esG.map Edge.target := List.mem_map_of_mem _ hee
      rw [hmapG] at this
      exact hsvc _ (hsubG.subset this)
    · obtain ⟨hsrc, _, htt⟩ := hAm e hee
      exact ⟨hsvc _ hsrc, htab _ htt⟩
    · obtain ⟨⟨pid, hpid, hsrc⟩, htt⟩ := hprocE e hee
      exact ⟨by rw [hsrc]; exact hproc _ hpid, htab _ htt⟩
    · obtain ⟨hsrc, htgt, _⟩ := hCm e hee
      exact ⟨hsvcC _ hsrc, hsvcL _ htgt⟩
    · obtain ⟨hsrc, htgt, _⟩ := hLm e hee
      exact ⟨hsvcL _ hsrc, hsvcC _ htgt⟩
    · obtain ⟨hsrc, htgt⟩ := hs3E e hee
      exact ⟨hsvc _ hsrc, hs3m _ htgt⟩
  · intro e he hlay
    rcases hcase e he with hee | hee | hee | hee | hee | hee
    · rcases hlay with hlay | hlay <;>
        · rw [hG e hee] at hlay
          exact absurd hlay (by decide)
    · exact (hAm e hee).2.2
    · exact (hprocE e hee).2
    · rcases hlay with hlay | hlay <;>
        · rw [hC e hee] at hlay
          exact absurd hlay (by decide)
    · rcases hlay with hlay | hlay <;>
        · rw [hL e hee] at hlay
          exact absurd hlay (by decide)
    · rcases hlay with hlay | hlay <;>
        · rw [hS e hee] at hlay
          exact absurd hlay (by decide)

/-- Witness for C4 at the tiny run. -/
theorem edge_referential_integrity_witness :
    run tinyConfig tinyPools tinyRNG = .ok (tinyNodes, tinyEdges) ∧
    ((∀ e ∈ tinyEdges, e.source ∈ tinyNodes.map Node.id ∧
        e.target ∈ tinyNodes.map Node.id) ∧
      (∀ e ∈ tinyEdges, e.layer = "table" ∨ e.layer = "stored_proc" →
        IsTableTarget tinyConfig e.target)) :=
  ⟨rfl, edge_referential_integrity tinyConfig tinyPools tinyRNG tinyNodes
    tinyEdges rfl⟩

/-! ### Claim C9: every layer tag is registered -/

lemma leafNodes_fields {n : Nat} {stem layer parent : String}
    {pool : List String} {ns : List Node} {pool' : List String}
    (h : leafNodes n stem layer parent pool = some (ns, pool')) :
    ∀ nd ∈ ns, nd.layer = layer ∧ nd.is_partition = "false" ∧
      nd.belongs_to = parent := by
  obtain ⟨labs, _, _, _, hns⟩ := leafNodes_ok h
  intro nd hnd
  rw [hns] at hnd
  obtain ⟨q, _, hq⟩ := List.mem_map.mp hnd
  rw [← hq]
  exact ⟨rfl, rfl, rfl⟩

lemma dbNodes_fields {c : Config} {dbs pool : List String} {ns : List Node}
    {pool' : List String} (h : dbNodes c dbs pool = some (ns, pool')) :
    ∀ nd ∈ ns,
      (nd.layer = "database" ∧ nd.is_partition = "true" ∧
        nd.belongs_to = "database" ∧ nd.id ∈ dbs) ∨
      (nd.layer = "table" ∧ nd.is_partition = "false" ∧
        nd.belongs_to ∈ dbs) := by
  obtain ⟨pairs, hfst, _, _, hns⟩ := dbNodes_ok _ h
  intro nd hnd
  rw [hns] at hnd
  obtain ⟨pr, hpr, hin⟩ := List.mem_flatMap.mp hnd
  have hprdbs : pr.1 ∈ dbs := by
    rw [← hfst]
    exact List.mem_map_of_mem _ hpr
  rcases List.mem_cons.mp hin with hin | hin
  · rw [hin]
    exact Or.inl ⟨rfl, rfl, rfl, hprdbs⟩
  · obtain ⟨q, _, hq⟩ := List.mem_map.mp hin
    rw [← hq]
    exact Or.inr ⟨rfl, rfl, hprdbs⟩

lemma procNodes_fields {c : Config} {idxs : List Nat} {r : RNG}
    {ns : List Node} {r' : RNG} (h : procNodes c idxs r = .ok (ns, r')) :
    ∀ nd ∈ ns, nd.layer = "stored_proc" ∧ nd.is_partition = "false" ∧
      nd.belongs_to ∈ c.DBS := by
  obtain ⟨dbsPicked, _, hpm, hns⟩ := procNodes_ok _ h
  intro nd hnd
  rw [hns] at hnd
  obtain ⟨q, hq, hqe⟩ := List.mem_map.mp hnd
  rw [← hqe]
  exact ⟨rfl, rfl, hpm _ (List.of_mem_zip hq).2⟩

/-- C9: every `layer` value on any produced node or edge is one of the
eight ids of the static layer registry. -/
theorem layer_tags_valid (c : Config) (p : Pools) (r : RNG)
    (ns : List Node) (es : List Edge) (h : run c p r = .ok (ns, es)) :
    (∀ nd ∈ ns, nd.layer ∈ layers.map (fun q => q.1)) ∧
    (∀ e ∈ es, e.layer ∈ layers.map (fun q => q.1)) := by
  obtain ⟨pp, r', cnt', r'', hb, hg⟩ := run_ok h
  constructor
  · obtain ⟨dbns, tpool, lns, lpool, cns, cpool, pns, rx, sns, spool,
      h₁, h₂, h₃, h₄, h₅, hns, _, _⟩ := buildNodes_ok hb
    intro nd hnd
    rw [hns] at hnd
    simp only [List.mem_append, List.mem_cons] at hnd
    rcases hnd with ((((((hroot | hdb) | hl) | hc) | hp) | hapi) | hs)
    · revert nd
      have : ∀ nd ∈ rootAndPartitions,
          nd.layer ∈ layers.map (fun q => q.1) := by decide
      intro nd hnd
      exact this nd hnd
    · rcases dbNodes_fields h₁ nd hdb with ⟨hl, _⟩ | ⟨hl, _⟩ <;>
        · rw [hl]
          decide
    · rw [(leafNodes_fields h₂ nd hl).1]
      decide
    · rw [(leafNodes_fields h₃ nd hc).1]
      decide
    · rw [(procNodes_fields h₄ nd hp).1]
      decide
    · rcases hapi with hapi | hfalse
      · rw [hapi]
        decide
      · exact absurd hfalse (by simp)
    · rw [(leafNodes_fields h₅ nd hs).1]
      decide
  · obtain ⟨esG, esA, esP, esC, esL, esS, heq, hG, hA, hP, hC, hL, hS,
      _, _, _, _, _, _⟩ := genEdges_pieces hg
    intro e he
    rw [heq] at he
    simp only [List.mem_append] at he
    rcases he with ((((he | he) | he) | he) | he) | he
    · rw [hG e he]; decide
    · rw [hA e he]; decide
    · rw [hP e he]; decide
    · rw [hC e he]; decide
    · rw [hL e he]; decide
    · rw [hS e he]; decide

/-- Witness for C9 at the tiny run. -/
theorem layer_tags_valid_witness :
    run tinyConfig tinyPools tinyRNG = .ok (tinyNodes, tinyEdges) ∧
    ((∀ nd ∈ tinyNodes, nd.layer ∈ layers.map (fun q => q.1)) ∧
      (∀ e ∈ tinyEdges, e.layer ∈ layers.map (fun q => q.1))) :=
  ⟨rfl, layer_tags_valid tinyConfig tinyPools tinyRNG tinyNodes tinyEdges
    rfl⟩

/-! ### Claim C1: label draws per category -/

/-- The Boolean test selecting the leaf nodes of one category layer. -/
def leafOf (L : String) (nd : Node) : Bool :=
  nd.layer == L && nd.is_partition == "false"

lemma filter_leaf_all {L : String} {ns : List Node}
    (h : ∀ nd ∈ ns, nd.layer = L ∧ nd.is_partition = "false") :
    ns.filter (leafOf L) = ns :=
  List.filter_eq_self.mpr (fun nd hnd => by
    obtain ⟨h1, h2⟩ := h nd hnd
    simp [leafOf, h1, h2])

lemma filter_leaf_none {L L' : String} {ns : List Node} (hne : L' ≠ L)
    (h : ∀ nd ∈ ns, nd.layer = L') :
    ns.filter (leafOf L) = [] :=
  List.filter_eq_nil_iff.mpr (fun nd hnd => by
    simp [leafOf, h nd hnd, hne])

lemma sum_const_nat {α : Type} : ∀ (l : List α) (g : α → Nat) (k : Nat),
    (∀ x ∈ l, g x = k) → (l.map g).sum = l.length * k := by
  intro l g k
  induction l with
  | nil => intro _; simp
  | cons a t ih =>
    intro h
    simp only [List.map_cons, List.sum_cons, List.length_cons,
      h a (by simp)]
    rw [ih (fun x hx => h x (by simp [hx]))]
    ring

/-- The labels on a leaf stage are exactly the drawn suffix of the pool:
count and distinctness follow. -/
lemma leafNodes_label_facts {n : Nat} {stem layer parent : String}
    {pool : List String} {ns : List Node} {pool' : List String}
    (h : leafNodes n stem layer parent pool = some (ns, pool')) :
    (ns.map Node.label).length = n ∧
    (pool.Nodup → (ns.map Node.label).Nodup) ∧
    pool'.length + n = pool.length := by
  obtain ⟨labs, hdraw, hlen, hpool, hns⟩ := leafNodes_ok h
  have hlab : ns.map Node.label = labs := by
    rw [hns, List.map_map]
    exact zip_map_snd (List.range n) labs (fun x => x) (by simp [hlen])
      |>.trans (by simp)
  rw [hlab]
  refine ⟨hlen, ?_, ?_⟩
  · intro hnd
    rw [hpool] at hnd
    have := List.Nodup.of_append_right hnd
    rw [List.nodup_reverse] at this
    exact this
  · have := congrArg List.length hpool
    simp [hlen] at this
    omega

/-- The table labels across all engines are pairwise distinct and number
`|DBS| * NUM_TABLES_PER_DB`, sliced off the shared table pool. -/
lemma dbNodes_label_facts {c : Config} {dbs pool : List String}
    {ns : List Node} {pool' : List String}
    (h : dbNodes c dbs pool = some (ns, pool')) :
    ((ns.filter (leafOf "table")).map Node.label).length =
      dbs.length * c.NUM_TABLES_PER_DB ∧
    (pool.Nodup → ((ns.filter (leafOf "table")).map Node.label).Nodup) ∧
    pool'.length + dbs.length * c.NUM_TABLES_PER_DB = pool.length := by
  obtain ⟨pairs, hfst, hplen, hpool, hns⟩ := dbNodes_ok _ h
  have hlab : (ns.filter (leafOf "table")).map Node.label =
      pairs.flatMap (fun pr => pr.2) := by
    rw [hns, List.filter_flatMap, List.map_flatMap]
    rw [List.flatMap_def, List.flatMap_def]
    congr 1
    apply List.map_congr_left
    intro pr hpr
    have hdbskip : leafOf "table"
        (mkNode pr.1 pr.1.toUpper "database" true "database" "") = false := by
      simp [leafOf, mkNode]
    rw [List.filter_cons_of_neg (by simp [hdbskip])]
    have htabs : (((List.range c.NUM_TABLES_PER_DB).zip pr.2).map (fun q =>
        mkNode (tableId pr.1 (q.1 + 1)) q.2 "table" false pr.1 "")).filter
          (leafOf "table") =
        ((List.range c.NUM_TABLES_PER_DB).zip pr.2).map (fun q =>
          mkNode (tableId pr.1 (q.1 + 1)) q.2 "table" false pr.1 "") :=
      filter_leaf_all (fun nd hnd => by
        obtain ⟨q, _, hq⟩ := List.mem_map.mp hnd
        rw [← hq]
        exact ⟨rfl, rfl⟩)
    rw [htabs, List.map_map]
    exact zip_map_snd (List.range c.NUM_TABLES_PER_DB) pr.2 (fun x => x)
      (by simp [hplen pr hpr]) |>.trans (by simp)
  have hflatlen : (pairs.flatMap (fun pr => pr.2)).length =
      dbs.length * c.NUM_TABLES_PER_DB := by
    rw [List.flatMap_def, List.length_flatten, List.map_map]
    have := sum_const_nat pairs (fun pr => pr.2.length)
      c.NUM_TABLES_PER_DB hplen
    rw [show (List.length ∘ (fun (pr : String × List String) => pr.2)) =
          (fun (pr : String × List String) => pr.2.length) from rfl, this]
    have hpl : pairs.length = dbs.length := by
      have := congrArg List.length hfst
      simpa using this
    rw [hpl]
  refine ⟨?_, ?_, ?_⟩
  · rw [hlab]
    exact hflatlen
  · intro hnd
    rw [hlab]
    rw [hpool] at hnd
    have := List.Nodup.of_append_right hnd
    rw [List.nodup_reverse] at this
    exact this
  · have := congrArg List.length hpool
    simp only [List.length_append, List.length_reverse] at this
    rw [hflatlen] at this
    omega

lemma filter_leaf_none₂ {L A B : String} {ns : List Node} (hA : A ≠ L)
    (hB : B ≠ L) (h : ∀ nd ∈ ns, nd.layer = A ∨ nd.layer = B) :
    ns.filter (leafOf L) = [] :=
  List.filter_eq_nil_iff.mpr (fun nd hnd => by
    rcases h nd hnd with h1 | h1 <;> simp [leafOf, h1, hA, hB])

/-- C1: in every successful node build, each label category yields exactly
its configured number of leaf nodes, the labels carried by those leaves
are (when the shuffled pool is duplicate-free) pairwise distinct, and the
category's pool shrinks by exactly that leaf count. -/
theorem label_draws_per_category (c : Config) (p : Pools) (r : RNG)
    (ns : List Node) (pp : Pools) (rr : RNG)
    (h : buildNodes c p r = .ok (ns, pp, rr))
    (hT : p.database_table.Nodup) (hF : p.lambda_function.Nodup)
    (hE : p.ecs_container.Nodup) (hB : p.s3_object_store.Nodup) :
    (((ns.filter (leafOf "table")).map Node.label).length =
        c.DBS.length * c.NUM_TABLES_PER_DB ∧
      ((ns.filter (leafOf "table")).map Node.label).Nodup ∧
      pp.database_table.length + c.DBS.length * c.NUM_TABLES_PER_DB =
        p.database_table.length) ∧
    (((ns.filter (leafOf "lambda")).map Node.label).length =
        c.NUM_LAMBDAS ∧
      ((ns.filter (leafOf "lambda")).map Node.label).Nodup ∧
      pp.lambda_function.length + c.NUM_LAMBDAS =
        p.lambda_function.length) ∧
    (((ns.filter (leafOf "container")).map Node.label).length =
        c.NUM_CONTAINERS ∧
      ((ns.filter (leafOf "container")).map Node.label).Nodup ∧
      pp.ecs_container.length + c.NUM_CONTAINERS =
        p.ecs_container.length) ∧
    (((ns.filter (leafOf "s3")).map Node.label).length =
        c.NUM_S3_BUCKETS ∧
      ((ns.filter (leafOf "s3")).map Node.label).Nodup ∧
      pp.s3_object_store.length + c.NUM_S3_BUCKETS =
        p.s3_object_store.length) := by
  obtain ⟨dbns, tpool, lns, lpool, cns, cpool, pns, r', sns, spool,
    h₁, h₂, h₃, h₄, h₅, hns, hpp, hrr⟩ := buildNodes_ok h
  have hLf := leafNodes_fields h₂
  have hCf := leafNodes_fields h₃
  have hSf := leafNodes_fields h₅
  have hPf := procNodes_fields h₄
  have hDf := dbNodes_fields h₁
  have hDf₂ : ∀ nd ∈ dbns, nd.layer = "database" ∨ nd.layer = "table" := by
    intro nd hnd
    rcases hDf nd hnd with ⟨hl, _⟩ | ⟨hl, _⟩
    · exact Or.inl hl
    · exact Or.inr hl
  have hsplit : ∀ L : String, ns.filter (leafOf L) =
      rootAndPartitions.filter (leafOf L) ++ dbns.filter (leafOf L) ++
      lns.filter (leafOf L) ++ cns.filter (leafOf L) ++
      pns.filter (leafOf L) ++
      ([mkNode "api_gateway_instance" "API Gateway" "api_gateway" false
        "api_gateway" ""].filter (leafOf L)) ++
      sns.filter (leafOf L) := by
    intro L
    rw [hns]
    simp only [List.filter_append]
  refine ⟨?_, ?_, ?_, ?_⟩
  · have hfacts := dbNodes_label_facts h₁
    have heq : ns.filter (leafOf "table") = dbns.filter (leafOf "table") := by
      rw [hsplit "table",
        show rootAndPartitions.filter (leafOf "table") = [] by decide,
        filter_leaf_none (by decide) (fun nd hnd => (hLf nd hnd).1),
        filter_leaf_none (by decide) (fun nd hnd => (hCf nd hnd).1),
        filter_leaf_none (by decide) (fun nd hnd => (hPf nd hnd).1),
        filter_leaf_none (by decide) (fun nd hnd => (hSf nd hnd).1),
        show ([mkNode "api_gateway_instance" "API Gateway" "api_gateway"
          false "api_gateway" ""].filter (leafOf "table")) = [] by decide]
      simp
    rw [heq, hpp]
    exact ⟨hfacts.1, hfacts.2.1 hT, hfacts.2.2⟩
  · have hfacts := leafNodes_label_facts h₂
    have heq : ns.filter (leafOf "lambda") = lns := by
      rw [hsplit "lambda",
        show rootAndPartitions.filter (leafOf "lambda") = [] by decide,
        filter_leaf_none₂ (by decide) (by decide) hDf₂,
        filter_leaf_all (fun nd hnd =>
          ⟨(hLf nd hnd).1, (hLf nd hnd).2.1⟩),
        filter_leaf_none (by decide) (fun nd hnd => (hCf nd hnd).1),
        filter_leaf_none (by decide) (fun nd hnd => (hPf nd hnd).1),
        filter_leaf_none (by decide) (fun nd hnd => (hSf nd hnd).1),
        show ([mkNode "api_gateway_instance" "API Gateway" "api_gateway"
          false "api_gateway" ""].filter (leafOf "lambda")) = [] by decide]
      simp
    rw [heq, hpp]
    exact ⟨hfacts.1, hfacts.2.1 hF, hfacts.2.2⟩
  · have hfacts := leafNodes_label_facts h₃
    have heq : ns.filter (leafOf "container") = cns := by
      rw [hsplit "container",
        show rootAndPartitions.filter (leafOf "container") = [] by decide,
        filter_leaf_none₂ (by decide) (by decide) hDf₂,
        filter_leaf_none (by decide) (fun nd hnd => (hLf nd hnd).1),
        filter_leaf_all (fun nd hnd =>
          ⟨(hCf nd hnd).1, (hCf nd hnd).2.1⟩),
        filter_leaf_none (by decide) (fun nd hnd => (hPf nd hnd).1),
        filter_leaf_none (by decide) (fun nd hnd => (hSf nd hnd).1),
        show ([mkNode "api_gateway_instance" "API Gateway" "api_gateway"
          false "api_gateway" ""].filter (leafOf "container")) = []
          by decide]
      simp
    rw [heq, hpp]
    exact ⟨hfacts.1, hfacts.2.1 hE, hfacts.2.2⟩
  · have hfacts := leafNodes_label_facts h₅
    have heq : ns.filter (leafOf "s3") = sns := by
      rw [hsplit "s3",
        show rootAndPartitions.filter (leafOf "s3") = [] by decide,
        filter_leaf_none₂ (by decide) (by decide) hDf₂,
        filter_leaf_none (by decide) (fun nd hnd => (hLf nd hnd).1),
        filter_leaf_none (by decide) (fun nd hnd => (hCf nd hnd).1),
        filter_leaf_none (by decide) (fun nd hnd => (hPf nd hnd).1),
        filter_leaf_all (fun nd hnd =>
          ⟨(hSf nd hnd).1, (hSf nd hnd).2.1⟩),
        show ([mkNode "api_gateway_instance" "API Gateway" "api_gateway"
          false "api_gateway" ""].filter (leafOf "s3")) = [] by decide]
      simp
    rw [heq, hpp]
    exact ⟨hfacts.1, hfacts.2.1 hB, hfacts.2.2⟩

def tinyBuild : List Node × Pools × RNG :=
  ((buildNodes tinyConfig tinyPools tinyRNG).toOption).getD
    ([], tinyPools, tinyRNG)

/-- Witness for C1 at the tiny build. -/
theorem label_draws_per_category_witness :
    buildNodes tinyConfig tinyPools tinyRNG =
      .ok (tinyBuild.1, tinyBuild.2.1, tinyBuild.2.2) ∧
    tinyPools.database_table.Nodup ∧ tinyPools.lambda_function.Nodup ∧
    tinyPools.ecs_container.Nodup ∧ tinyPools.s3_object_store.Nodup ∧
    ((((tinyBuild.1.filter (leafOf "table")).map Node.label).length =
        tinyConfig.DBS.length * tinyConfig.NUM_TABLES_PER_DB ∧
      ((tinyBuild.1.filter (leafOf "table")).map Node.label).Nodup ∧
      tinyBuild.2.1.database_table.length +
        tinyConfig.DBS.length * tinyConfig.NUM_TABLES_PER_DB =
        tinyPools.database_table.length) ∧
    (((tinyBuild.1.filter (leafOf "lambda")).map Node.label).length =
        tinyConfig.NUM_LAMBDAS ∧
      ((tinyBuild.1.filter (leafOf "lambda")).map Node.label).Nodup ∧
      tinyBuild.2.1.lambda_function.length + tinyConfig.NUM_LAMBDAS =
        tinyPools.lambda_function.length) ∧
    (((tinyBuild.1.filter (leafOf "container")).map Node.label).length =
        tinyConfig.NUM_CONTAINERS ∧
      ((tinyBuild.1.filter (leafOf "container")).map Node.label).Nodup ∧
      tinyBuild.2.1.ecs_container.length + tinyConfig.NUM_CONTAINERS =
        tinyPools.ecs_container.length) ∧
    (((tinyBuild.1.filter (leafOf "s3")).map Node.label).length =
        tinyConfig.NUM_S3_BUCKETS ∧
      ((tinyBuild.1.filter (leafOf "s3")).map Node.label).Nodup ∧
      tinyBuild.2.1.s3_object_store.length + tinyConfig.NUM_S3_BUCKETS =
        tinyPools.s3_object_store.length)) :=
  ⟨rfl, by decide, by decide, by decide, by decide,
   label_draws_per_category tinyConfig tinyPools tinyRNG tinyBuild.1
     tinyBuild.2.1 tinyBuild.2.2 rfl (by decide) (by decide) (by decide)
     (by decide)⟩

/-! ### Claim C7: pool exhaustion -/

lemma dbNodes_progress {c : Config} : ∀ (dbs pool : List String),
    dbs.length * c.NUM_TABLES_PER_DB ≤ pool.length →
    ∃ out, dbNodes c dbs pool = some out := by
  intro dbs
  induction dbs with
  | nil => intro pool _; exact ⟨_, rfl⟩
  | cons db rest ih =>
    intro pool hle
    have hnum : c.NUM_TABLES_PER_DB ≤ pool.length := by
      have : (rest.length + 1) * c.NUM_TABLES_PER_DB =
          rest.length * c.NUM_TABLES_PER_DB + c.NUM_TABLES_PER_DB := by ring
      simp only [List.length_cons] at hle
      omega
    have hsome : (drawN c.NUM_TABLES_PER_DB pool).isSome :=
      drawN_isSome hnum
    cases hd : drawN c.NUM_TABLES_PER_DB pool with
    | none => rw [hd] at hsome; simp at hsome
    | some lp =>
      obtain ⟨labs, pool₁⟩ := lp
      obtain ⟨hsplitp, hlen⟩ := drawN_some hd
      have hlen₁ : pool₁.length + c.NUM_TABLES_PER_DB = pool.length := by
        have := congrArg List.length hsplitp
        simp [hlen] at this
        omega
      have hrest : rest.length * c.NUM_TABLES_PER_DB ≤ pool₁.length := by
        have : (rest.length + 1) * c.NUM_TABLES_PER_DB =
            rest.length * c.NUM_TABLES_PER_DB + c.NUM_TABLES_PER_DB := by
          ring
        simp only [List.length_cons] at hle
        omega
      obtain ⟨out, hrec⟩ := ih pool₁ hrest
      rw [dbNodes, hd]
      simp only
      rw [hrec]
      exact ⟨_, rfl⟩

/-- C7: drawing from an exhausted category pool aborts the build with
`poolExhausted`; concretely, when the function pool is smaller than the
requested function count (and the earlier table stage fits its pool), the
build fails with `poolExhausted`, every draw up to the pool size still
succeeding and the over-long draw failing (it fails on the draw after the
pool's last entry, so exactly the pool's entries were consumed). -/
theorem pool_exhaustion (c : Config) (p : Pools) (r : RNG)
    (htab : c.DBS.length * c.NUM_TABLES_PER_DB ≤ p.database_table.length)
    (hlt : p.lambda_function.length < c.NUM_LAMBDAS) :
    buildNodes c p r = .error .poolExhausted ∧
    (drawN p.lambda_function.length p.lambda_function).isSome ∧
    drawN c.NUM_LAMBDAS p.lambda_function = none := by
  obtain ⟨out, hdb⟩ := dbNodes_progress c.DBS p.database_table htab
  obtain ⟨dbns, tpool⟩ := out
  have hlam : leafNodes c.NUM_LAMBDAS "lambda_" "lambda" "lambda"
      p.lambda_function = none := by
    rw [leafNodes, drawN_none hlt]
  refine ⟨?_, drawN_isSome (Nat.le_refl _), drawN_none hlt⟩
  rw [buildNodes, hdb]
  simp only
  rw [hlam]

/-- Scenario B fixtures: 3 function labels available, 5 requested. -/
def scenarioBConfig : Config := ⟨1, 5, 1, 1, 1, 1, ["mysql"]⟩

def scenarioBPools : Pools := ⟨["f1", "f2", "f3"], ["c1"], ["t1"], ["b1"]⟩

/-- Witness for C7 at scenario B (pool of 3, request of 5). -/
theorem pool_exhaustion_witness :
    scenarioBConfig.DBS.length * scenarioBConfig.NUM_TABLES_PER_DB ≤
      scenarioBPools.database_table.length ∧
    scenarioBPools.lambda_function.length <
      scenarioBConfig.NUM_LAMBDAS ∧
    (buildNodes scenarioBConfig scenarioBPools tinyRNG =
        .error .poolExhausted ∧
      (drawN scenarioBPools.lambda_function.length
        scenarioBPools.lambda_function).isSome ∧
      drawN scenarioBConfig.NUM_LAMBDAS scenarioBPools.lambda_function =
        none) :=
  ⟨by decide, by decide,
   pool_exhaustion scenarioBConfig scenarioBPools tinyRNG (by decide)
     (by decide)⟩

/-! ### Claim C5: ownership references only nodes created earlier -/

/-- Every node's non-empty `belongs_to` names an id among `acc` (the ids
created before this list) or among the ids of the nodes preceding it in
this list. -/
def PrefixClosed : List String → List Node → Prop
  | _, [] => True
  | acc, nd :: rest =>
    (nd.belongs_to ≠ "" → nd.belongs_to ∈ acc) ∧
    PrefixClosed (acc ++ [nd.id]) rest

lemma prefixClosed_mono : ∀ (ns : List Node) (acc acc' : List String),
    acc ⊆ acc' → PrefixClosed acc ns → PrefixClosed acc' ns := by
  intro ns
  induction ns with
  | nil => intro acc acc' _ _; trivial
  | cons nd rest ih =>
    intro acc acc' hsub h
    refine ⟨fun hne => hsub (h.1 hne), ?_⟩
    refine ih (acc ++ [nd.id]) (acc' ++ [nd.id]) ?_ h.2
    intro x hx
    rcases List.mem_append.mp hx with hx | hx
    · exact List.mem_append.mpr (Or.inl (hsub hx))
    · exact List.mem_append.mpr (Or.inr hx)

lemma prefixClosed_append : ∀ (A B : List Node) (acc : List String),
    PrefixClosed acc A → PrefixClosed (acc ++ A.map Node.id) B →
    PrefixClosed acc (A ++ B) := by
  intro A
  induction A with
  | nil =>
    intro B acc _ hB
    simpa using hB
  | cons a A ih =>
    intro B acc hA hB
    refine ⟨hA.1, ?_⟩
    refine ih B (acc ++ [a.id]) hA.2 ?_
    have : acc ++ [a.id] ++ A.map Node.id =
        acc ++ (a :: A).map Node.id := by simp
    rw [this]
    exact hB

lemma prefixClosed_of_all : ∀ (ns : List Node) (acc : List String),
    (∀ nd ∈ ns, nd.belongs_to ≠ "" → nd.belongs_to ∈ acc) →
    PrefixClosed acc ns := by
  intro ns
  induction ns with
  | nil => intro acc _; trivial
  | cons nd rest ih =>
    intro acc h
    refine ⟨h nd (by simp), ?_⟩
    refine ih (acc ++ [nd.id]) ?_
    intro x hx hne
    exact List.mem_append.mpr (Or.inl (h x (by simp [hx]) hne))

lemma prefixClosed_spec : ∀ (ns : List Node) (acc : List String),
    PrefixClosed acc ns →
    ∀ i : Fin ns.length, (ns.get i).belongs_to ≠ "" →
      (ns.get i).belongs_to ∈ acc ++ (ns.take i.val).map Node.id := by
  intro ns
  induction ns with
  | nil => intro acc _ i; exact absurd i.isLt (by simp)
  | cons nd rest ih =>
    intro acc h i
    rcases i with ⟨iv, hiv⟩
    cases iv with
    | zero =>
      intro hne
      simpa using h.1 hne
    | succ j =>
      intro hne
      have hj : j < rest.length := by simpa using hiv
      have := ih (acc ++ [nd.id]) h.2 ⟨j, hj⟩ (by simpa using hne)
      simp only [List.get_eq_getElem] at this ⊢
      simp only [List.getElem_cons_succ, List.take_succ_cons,
        List.map_cons]
      have hassoc : acc ++ [nd.id] ++ (rest.take j).map Node.id =
          acc ++ (nd.id :: (rest.take j).map Node.id) := by simp
      rw [hassoc] at this
      exact this

lemma dbNodes_prefixClosed {c : Config} {dbs pool : List String}
    {ns : List Node} {pool' : List String}
    (h : dbNodes c dbs pool = some (ns, pool')) :
    ∀ acc : List String, "database" ∈ acc → PrefixClosed acc ns := by
  obtain ⟨pairs, hfst, hplen, hpool, hns⟩ := dbNodes_ok _ h
  rw [hns]
  clear hns hpool hplen hfst h
  induction pairs with
  | nil => intro acc _; trivial
  | cons pr rest ih =>
    intro acc hdb
    rw [List.flatMap_cons]
    refine prefixClosed_append _ _ acc ?_ ?_
    · refine ⟨fun _ => hdb, ?_⟩
      refine prefixClosed_of_all _ _ ?_
      intro nd hnd _
      obtain ⟨q, _, hq⟩ := List.mem_map.mp hnd
      rw [← hq]
      exact List.mem_append.mpr (Or.inr (by simp [mkNode]))
    · refine ih _ ?_
      exact List.mem_append.mpr (Or.inl hdb)

lemma dbNodes_ids_sup {c : Config} {dbs pool : List String}
    {ns : List Node} {pool' : List String}
    (h : dbNodes c dbs pool = some (ns, pool')) :
    ∀ db ∈ dbs, db ∈ ns.map Node.id := by
  obtain ⟨pairs, hfst, _, _, hns⟩ := dbNodes_ok _ h
  intro db hdb
  rw [← hfst] at hdb
  obtain ⟨pr, hpr, hprdb⟩ := List.mem_map.mp hdb
  rw [hns, List.map_flatMap]
  apply List.mem_flatMap.mpr
  refine ⟨pr, hpr, ?_⟩
  simp only [List.map_cons, List.mem_cons]
  exact Or.inl (by rw [← hprdb]; rfl)

/-- C5: in every successful build, each node with a non-empty
`belongs_to` references the id of a node created strictly earlier (an
earlier position in the node list), and the root is the only node with an
empty `belongs_to` (given that the configured engine names are
non-empty strings). -/
theorem ownership_tree (c : Config) (p : Pools) (r : RNG) (ns : List Node)
    (pp : Pools) (rr : RNG) (h : buildNodes c p r = .ok (ns, pp, rr))
    (hdb : ∀ db ∈ c.DBS, db ≠ "") :
    (∀ i : Fin ns.length, (ns.get i).belongs_to ≠ "" →
      (ns.get i).belongs_to ∈ (ns.take i.val).map Node.id) ∧
    ns.filter (fun nd => nd.belongs_to == "") =
      [mkNode "project" "Project" "root" true "" ""] := by
  obtain ⟨dbns, tpool, lns, lpool, cns, cpool, pns, r', sns, spool,
    h₁, h₂, h₃, h₄, h₅, hns, hpp, hrr⟩ := buildNodes_ok h
  have hLf := leafNodes_fields h₂
  have hCf := leafNodes_fields h₃
  have hSf := leafNodes_fields h₅
  have hPf := procNodes_fields h₄
  have hDf := dbNodes_fields h₁
  have hRootIds : rootAndPartitions.map Node.id =
      "project" :: partitionNames := by decide
  constructor
  · have hclosed : PrefixClosed [] ns := by
      have hassoc : ns = rootAndPartitions ++ (dbns ++ (lns ++ (cns ++
          (pns ++ ([mkNode "api_gateway_instance" "API Gateway"
            "api_gateway" false "api_gateway" ""] ++ sns))))) := by
        rw [hns]
        simp [List.append_assoc]
      rw [hassoc]
      refine prefixClosed_append _ _ [] ?_ ?_
      · show PrefixClosed [] rootAndPartitions
        refine ⟨by simp [mkNode], ?_⟩
        refine prefixClosed_of_all _ _ ?_
        intro nd hnd _
        obtain ⟨part, _, hpart⟩ := List.mem_map.mp hnd
        rw [← hpart]
        simp [mkNode]
      refine prefixClosed_append _ _ _ ?_ ?_
      · exact dbNodes_prefixClosed h₁ _ (by simp [hRootIds, partitionNames])
      refine prefixClosed_append _ _ _ ?_ ?_
      · refine prefixClosed_of_all _ _ ?_
        intro nd hnd _
        rw [(hLf nd hnd).2.2]
        simp [hRootIds, partitionNames]
      refine prefixClosed_append _ _ _ ?_ ?_
      · refine prefixClosed_of_all _ _ ?_
        intro nd hnd _
        rw [(hCf nd hnd).2.2]
        simp [hRootIds, partitionNames]
      refine prefixClosed_append _ _ _ ?_ ?_
      · refine prefixClosed_of_all _ _ ?_
        intro nd hnd _
        have hmem := dbNodes_ids_sup h₁ _ (hPf nd hnd).2.2
        simp only [List.nil_append, List.mem_append]
        exact Or.inl (Or.inl (Or.inr hmem))
      refine prefixClosed_append _ _ _ ?_ ?_
      · refine prefixClosed_of_all _ _ ?_
        intro nd hnd _
        rcases List.mem_singleton.mp hnd with rfl
        simp [mkNode, hRootIds, partitionNames]
      · refine prefixClosed_of_all _ _ ?_
        intro nd hnd _
        rw [(hSf nd hnd).2.2]
        simp [hRootIds, partitionNames]
    intro i hne
    have := prefixClosed_spec ns [] hclosed i hne
    simpa using this
  · rw [hns]
    simp only [List.filter_append]
    have hbt_ne : ∀ (bs : List Node),
        (∀ nd ∈ bs, nd.belongs_to ≠ "") →
        bs.filter (fun nd => nd.belongs_to == "") = [] := by
      intro bs hb
      refine List.filter_eq_nil_iff.mpr ?_
      intro nd hnd
      simp [hb nd hnd]
    rw [show rootAndPartitions.filter (fun nd => nd.belongs_to == "") =
          [mkNode "project" "Project" "root" true "" ""] by decide,
      hbt_ne dbns (fun nd hnd => by
        rcases hDf nd hnd with ⟨_, _, hb, _⟩ | ⟨_, _, hb⟩
        · rw [hb]; simp
        · exact hdb _ hb),
      hbt_ne lns (fun nd hnd => by rw [(hLf nd hnd).2.2]; simp),
      hbt_ne cns (fun nd hnd => by rw [(hCf nd hnd).2.2]; simp),
      hbt_ne pns (fun nd hnd => hdb _ (hPf nd hnd).2.2),
      show ([mkNode "api_gateway_instance" "API Gateway" "api_gateway"
        false "api_gateway" ""].filter (fun nd => nd.belongs_to == ""))
        = [] by decide,
      hbt_ne sns (fun nd hnd => by rw [(hSf nd hnd).2.2]; simp)]
    simp

/-- Witness for C5 at the tiny build. -/
theorem ownership_tree_witness :
    buildNodes tinyConfig tinyPools tinyRNG =
      .ok (tinyBuild.1, tinyBuild.2.1, tinyBuild.2.2) ∧
    (∀ db ∈ tinyConfig.DBS, db ≠ "") ∧
    ((∀ i : Fin tinyBuild.1.length,
        (tinyBuild.1.get i).belongs_to ≠ "" →
        (tinyBuild.1.get i).belongs_to ∈
          (tinyBuild.1.take i.val).map Node.id) ∧
      tinyBuild.1.filter (fun nd => nd.belongs_to == "") =
        [mkNode "project" "Project" "root" true "" ""]) :=
  ⟨rfl, by decide,
   ownership_tree tinyConfig tinyPools tinyRNG tinyBuild.1 tinyBuild.2.1
     tinyBuild.2.2 rfl (by decide)⟩

/-! ### Claim C10: the node skeleton is random-independent -/

/-- The (`id`, `layer`, `is_partition`) sequence determined by the
configuration alone. -/
def nodeProjSpec (c : Config) : List (String × String × String) :=
  (("project", "root", "true") ::
    partitionNames.map (fun s => (s, s, "true"))) ++
  c.DBS.flatMap (fun db => (db, "database", "true") ::
    (List.range c.NUM_TABLES_PER_DB).map (fun i =>
      (tableId db (i + 1), "table", "false"))) ++
  (List.range c.NUM_LAMBDAS).map (fun i =>
    ("lambda_" ++ Nat.repr (i + 1), "lambda", "false")) ++
  (List.range c.NUM_CONTAINERS).map (fun i =>
    ("container_" ++ Nat.repr (i + 1), "container", "false")) ++
  (List.range c.NUM_STORED_PROCS).map (fun i =>
    ("stored_proc_" ++ Nat.repr (i + 1), "stored_proc", "false")) ++
  [("api_gateway_instance", "api_gateway", "false")] ++
  (List.range c.NUM_S3_BUCKETS).map (fun i =>
    ("s3_" ++ Nat.repr (i + 1), "s3", "false"))

/-- The projection of every successful build is the configuration-only
skeleton: neither the pools nor the random stream influence it. -/
lemma buildNodes_proj {c : Config} {p : Pools} {r : RNG} {ns : List Node}
    {pp : Pools} {rr : RNG} (h : buildNodes c p r = .ok (ns, pp, rr)) :
    ns.map (fun nd => (nd.id, nd.layer, nd.is_partition)) =
      nodeProjSpec c := by
  obtain ⟨dbns, tpool, lns, lpool, cns, cpool, pns, r', sns, spool,
    h₁, h₂, h₃, h₄, h₅, hns, hpp, hrr⟩ := buildNodes_ok h
  have hroot : rootAndPartitions.map
      (fun nd => (nd.id, nd.layer, nd.is_partition)) =
      ("project", "root", "true") ::
        partitionNames.map (fun s => (s, s, "true")) := by decide
  have hleaf : ∀ {n : Nat} {stem layer parent : String}
      {pool pool' : List String} {bs : List Node},
      leafNodes n stem layer parent pool = some (bs, pool') →
      bs.map (fun nd => (nd.id, nd.layer, nd.is_partition)) =
        (List.range n).map (fun i =>
          (stem ++ Nat.repr (i + 1), layer, "false")) := by
    intro n stem layer parent pool pool' bs hb
    obtain ⟨labs, _, hlen, _, hbs⟩ := leafNodes_ok hb
    rw [hbs, List.map_map]
    exact zip_map_fst (List.range n) labs
      (fun i => (stem ++ Nat.repr (i + 1), layer, "false"))
      (by simp [hlen])
  have hdbp : dbns.map (fun nd => (nd.id, nd.layer, nd.is_partition)) =
      c.DBS.flatMap (fun db => (db, "database", "true") ::
        (List.range c.NUM_TABLES_PER_DB).map (fun i =>
          (tableId db (i + 1), "table", "false"))) := by
    obtain ⟨pairs, hfst, hplen, _, hdbns⟩ := dbNodes_ok _ h₁
    rw [hdbns, List.map_flatMap, ← hfst]
    rw [List.flatMap_def, List.flatMap_def, List.map_map]
    congr 1
    apply List.map_congr_left
    intro pr hpr
    show (mkNode pr.1 pr.1.toUpper "database" true "database" "" ::
        ((List.range c.NUM_TABLES_PER_DB).zip pr.2).map (fun q =>
          mkNode (tableId pr.1 (q.1 + 1)) q.2 "table" false pr.1 "")).map
        (fun nd => (nd.id, nd.layer, nd.is_partition)) =
      (pr.1, "database", "true") ::
        (List.range c.NUM_TABLES_PER_DB).map (fun i =>
          (tableId pr.1 (i + 1), "table", "false"))
    rw [List.map_cons, List.map_map]
    refine congrArg _ ?_
    exact zip_map_fst (List.range c.NUM_TABLES_PER_DB) pr.2
      (fun i => (tableId pr.1 (i + 1), "table", "false"))
      (by simp [hplen pr hpr])
  have hpnp : pns.map (fun nd => (nd.id, nd.layer, nd.is_partition)) =
      (List.range c.NUM_STORED_PROCS).map (fun i =>
        ("stored_proc_" ++ Nat.repr (i + 1), "stored_proc", "false")) := by
    obtain ⟨dbsPicked, hplen, _, hpns⟩ := procNodes_ok _ h₄
    rw [hpns, List.map_map]
    exact zip_map_fst (List.range c.NUM_STORED_PROCS) dbsPicked
      (fun i => ("stored_proc_" ++ Nat.repr (i + 1), "stored_proc",
        "false")) (by omega)
  rw [hns, nodeProjSpec]
  simp only [List.map_append]
  rw [hroot, hdbp, hleaf h₂, hleaf h₃, hleaf h₅, hpnp]
  rfl

/-- C10: two successful builds over the same configuration — whatever the
label pools and the random outcomes — produce node collections of the
same length carrying the same (`id`, `layer`, `is_partition`) triples in
the same order. -/
theorem node_skeleton_deterministic (c : Config) (p₁ : Pools) (r₁ : RNG)
    (p₂ : Pools) (r₂ : RNG) (ns₁ ns₂ : List Node) (pp₁ pp₂ : Pools)
    (rr₁ rr₂ : RNG) (h₁ : buildNodes c p₁ r₁ = .ok (ns₁, pp₁, rr₁))
    (h₂ : buildNodes c p₂ r₂ = .ok (ns₂, pp₂, rr₂)) :
    ns₁.length = ns₂.length ∧
    ns₁.map (fun nd => (nd.id, nd.layer, nd.is_partition)) =
      ns₂.map (fun nd => (nd.id, nd.layer, nd.is_partition)) := by
  have e₁ := buildNodes_proj h₁
  have e₂ := buildNodes_proj h₂
  have hmap := e₁.trans e₂.symm
  constructor
  · have := congrArg List.length hmap
    simpa using this
  · exact hmap

/-- A second tiny run: different pool contents (a permuted shuffle) and a
different random stream. -/
def tinyPools₂ : Pools :=
  ⟨["fnB", "fnA"], ["ctA"], ["tbC", "tbA", "tbD", "tbB"], ["bkA"]⟩

def tinyRNG₂ : RNG := ⟨fun n => 7 * n + 3, 0⟩

def tinyBuild₂ : List Node × Pools × RNG :=
  ((buildNodes tinyConfig tinyPools₂ tinyRNG₂).toOption).getD
    ([], tinyPools₂, tinyRNG₂)

/-- Witness for C10: two runs with different pools and random streams. -/
theorem node_skeleton_deterministic_witness :
    buildNodes tinyConfig tinyPools tinyRNG =
      .ok (tinyBuild.1, tinyBuild.2.1, tinyBuild.2.2) ∧
    buildNodes tinyConfig tinyPools₂ tinyRNG₂ =
      .ok (tinyBuild₂.1, tinyBuild₂.2.1, tinyBuild₂.2.2) ∧
    (tinyBuild.1.length = tinyBuild₂.1.length ∧
      tinyBuild.1.map (fun nd => (nd.id, nd.layer, nd.is_partition)) =
        tinyBuild₂.1.map (fun nd => (nd.id, nd.layer, nd.is_partition))) :=
  ⟨rfl, rfl,
   node_skeleton_deterministic tinyConfig tinyPools tinyRNG tinyPools₂
     tinyRNG₂ tinyBuild.1 tinyBuild₂.1 tinyBuild.2.1 tinyBuild₂.2.1
     tinyBuild.2.2 tinyBuild₂.2.2 rfl rfl⟩

end Layercake
